import Mathlib

/-! # Synthetic job contracts

A shallow embedding of the Go package `job` (files `job_v1.go` and `streams.go`):
the versioned execution-job record with its structural validation, the derivation
of the idempotency key and of the deterministic execution id, and the names of
the Redis streams.

The first half of the file models the parts of the Go standard library and of
`github.com/google/uuid` that the package calls; the second half is the package
itself; the theorems follow the definitions.

Conventions.  A Go `string` or `[]byte` is a list of bytes (`GoString`).  A Go
`int` is an `Int` (the package does no arithmetic on its integers, so the 64-bit
range plays no role).  A Go `error` is `Option GoError`, `none` being `nil`.
The seconds of a `time.Time` stay in the signed 64-bit range, and package `time`
computes on them as Go does: the absolute seconds wrap at 64 bits, and `Add`
saturates.
-/

namespace Job

/-! ## Bytes and strings -/

/-- One byte. -/
abbrev Byte := Fin 256

/-- A Go string: a finite sequence of bytes. -/
abbrev GoString := List Byte

/-- The byte of an ASCII character. -/
def chr (c : Char) : Byte := Fin.ofNat c.toNat

/-- The Go string written by an ASCII literal. -/
def str (s : String) : GoString := s.toList.map chr

/-- A Go error value, identified with the message its `Error` method returns. -/
structure GoError where
  msg : GoString
deriving DecidableEq

/-! ## Package fmt -/

namespace fmt

/-- The ASCII digit of a number below ten. -/
def digit (d : Nat) : Byte := Fin.ofNat (48 + d)

/-- Decimal digits of `n`, most significant first; `fuel` bounds their number. -/
def digits : Nat → Nat → List Nat
  | 0, _ => []
  | fuel + 1, n => if n < 10 then [n] else digits fuel (n / 10) ++ [n % 10]

/-- The decimal rendering of a natural number, without leading zeros. -/
def decimal (n : Nat) : GoString := (digits (n + 1) n).map digit

/-- The rendering of the verb `%d` for an `int`: a minus sign for a negative
number, then the decimal digits of its absolute value. -/
def formatInt (x : Int) : GoString :=
  if x < 0 then chr '-' :: decimal x.natAbs else decimal x.natAbs

/-- The call `fmt.Errorf(..)`, given the message its format and arguments produce. -/
def Errorf (message : GoString) : GoError := ⟨message⟩

end fmt

/-! ## Package encoding/hex -/

namespace hex

/-- The table `hextable = "0123456789abcdef"`. -/
def hextable : GoString := str "0123456789abcdef"

/-- The lowercase hexadecimal digit of a number below sixteen. -/
def hexdigit (n : Nat) : Byte := hextable.getD n 0

/-- The function `hex.EncodeToString`: two lowercase hexadecimal digits per byte,
high nibble first. -/
def EncodeToString (src : List Byte) : GoString :=
  src.flatMap fun b => [hexdigit (b.val / 16), hexdigit (b.val % 16)]

end hex

/-! ## Words and blocks shared by the SHA hash functions -/

/-- Reduce to a 32-bit word. -/
def w32 (x : Nat) : Nat := x % 4294967296

/-- Rotate a 32-bit word right by `n` bits. -/
def rotr (x n : Nat) : Nat := w32 ((x >>> n) ||| (x <<< (32 - n)))

/-- Rotate a 32-bit word left by `n` bits. -/
def rotl (x n : Nat) : Nat := w32 ((x <<< n) ||| (x >>> (32 - n)))

/-- Bitwise complement of a 32-bit word. -/
def not32 (x : Nat) : Nat := 4294967295 - w32 x

/-- The low `n` bytes of `x`, big-endian. -/
def beBytes : Nat → Nat → List Byte
  | 0, _ => []
  | n + 1, x => beBytes n (x / 256) ++ [Fin.ofNat (x % 256)]

/-- The number written by a big-endian byte sequence. -/
def beWord (bs : List Byte) : Nat := bs.foldl (fun acc b => acc * 256 + b.val) 0

/-- The first `count` consecutive chunks of `n` elements of a list. -/
def chunks {α : Type} (n : Nat) : Nat → List α → List (List α)
  | 0, _ => []
  | count + 1, l => l.take n :: chunks n count (l.drop n)

/-- Merkle–Damgård padding common to SHA-1 and SHA-256: the byte `0x80`, zero
bytes up to 56 modulo 64, then the bit length as a 64-bit big-endian number. -/
def shaPad (msg : List Byte) : List Byte :=
  msg ++ [128] ++ List.replicate ((119 - msg.length % 64) % 64) 0 ++ beBytes 8 (8 * msg.length)

/-! ## Package crypto/sha256 -/

namespace sha256

/-- The round constants of SHA-256. -/
def K : List Nat := [
  0x428a2f98, 0x71374491, 0xb5c0fbcf, 0xe9b5dba5, 0x3956c25b, 0x59f111f1, 0x923f82a4, 0xab1c5ed5,
  0xd807aa98, 0x12835b01, 0x243185be, 0x550c7dc3, 0x72be5d74, 0x80deb1fe, 0x9bdc06a7, 0xc19bf174,
  0xe49b69c1, 0xefbe4786, 0x0fc19dc6, 0x240ca1cc, 0x2de92c6f, 0x4a7484aa, 0x5cb0a9dc, 0x76f988da,
  0x983e5152, 0xa831c66d, 0xb00327c8, 0xbf597fc7, 0xc6e00bf3, 0xd5a79147, 0x06ca6351, 0x14292967,
  0x27b70a85, 0x2e1b2138, 0x4d2c6dfc, 0x53380d13, 0x650a7354, 0x766a0abb, 0x81c2c92e, 0x92722c85,
  0xa2bfe8a1, 0xa81a664b, 0xc24b8b70, 0xc76c51a3, 0xd192e819, 0xd6990624, 0xf40e3585, 0x106aa070,
  0x19a4c116, 0x1e376c08, 0x2748774c, 0x34b0bcb5, 0x391c0cb3, 0x4ed8aa4a, 0x5b9cca4f, 0x682e6ff3,
  0x748f82ee, 0x78a5636f, 0x84c87814, 0x8cc70208, 0x90befffa, 0xa4506ceb, 0xbef9a3f7, 0xc67178f2]

/-- The eight working variables of SHA-256. -/
structure State where
  a : Nat
  b : Nat
  c : Nat
  d : Nat
  e : Nat
  f : Nat
  g : Nat
  h : Nat

/-- The initial hash value of SHA-256. -/
def init : State :=
  ⟨0x6a09e667, 0xbb67ae85, 0x3c6ef372, 0xa54ff53a, 0x510e527f, 0x9b05688c, 0x1f83d9ab, 0x5be0cd19⟩

/-- Extend a message schedule by `n` words. -/
def schedule (w : List Nat) : Nat → List Nat
  | 0 => w
  | n + 1 =>
    let v := schedule w n
    let i := v.length
    let w15 := v.getD (i - 15) 0
    let w2 := v.getD (i - 2) 0
    let s0 := rotr w15 7 ^^^ rotr w15 18 ^^^ (w15 >>> 3)
    let s1 := rotr w2 17 ^^^ rotr w2 19 ^^^ (w2 >>> 10)
    v ++ [w32 (v.getD (i - 16) 0 + s0 + v.getD (i - 7) 0 + s1)]

/-- One round of the compression function, on a round constant and a schedule word. -/
def round (s : State) (kw : Nat × Nat) : State :=
  let S1 := rotr s.e 6 ^^^ rotr s.e 11 ^^^ rotr s.e 25
  let ch := (s.e &&& s.f) ^^^ (not32 s.e &&& s.g)
  let t1 := w32 (s.h + S1 + ch + kw.1 + kw.2)
  let S0 := rotr s.a 2 ^^^ rotr s.a 13 ^^^ rotr s.a 22
  let maj := (s.a &&& s.b) ^^^ (s.a &&& s.c) ^^^ (s.b &&& s.c)
  let t2 := w32 (S0 + maj)
  ⟨w32 (t1 + t2), s.a, s.b, s.c, w32 (s.d + t1), s.e, s.f, s.g⟩

/-- The compression function on one 64-byte block. -/
def block (hs : State) (blk : List Byte) : State :=
  let w := schedule ((chunks 4 16 blk).map beWord) 48
  let r := (K.zip w).foldl round hs
  ⟨w32 (hs.a + r.a), w32 (hs.b + r.b), w32 (hs.c + r.c), w32 (hs.d + r.d),
   w32 (hs.e + r.e), w32 (hs.f + r.f), w32 (hs.g + r.g), w32 (hs.h + r.h)⟩

/-- The function `sha256.Sum256`: the SHA-256 digest (32 bytes) of a message. -/
def Sum256 (msg : List Byte) : List Byte :=
  let p := shaPad msg
  let r := (chunks 64 (p.length / 64) p).foldl block init
  beBytes 4 r.a ++ beBytes 4 r.b ++ beBytes 4 r.c ++ beBytes 4 r.d ++
  beBytes 4 r.e ++ beBytes 4 r.f ++ beBytes 4 r.g ++ beBytes 4 r.h

/-- A running SHA-256 hash (`hash.Hash`), identified with the bytes written so far. -/
structure Hash where
  written : List Byte

/-- The call `sha256.New()`: a hash with nothing written. -/
def New : Hash := ⟨[]⟩

/-- The method `Write`: add more data to the running hash. -/
def Hash.Write (h : Hash) (p : List Byte) : Hash := ⟨h.written ++ p⟩

/-- The method `Sum`: append the digest of the data written so far to `b`. -/
def Hash.Sum (h : Hash) (b : List Byte) : List Byte := b ++ Sum256 h.written

end sha256

/-! ## Package crypto/sha1 -/

namespace sha1

/-- The five working variables of SHA-1. -/
structure State where
  a : Nat
  b : Nat
  c : Nat
  d : Nat
  e : Nat

/-- The initial hash value of SHA-1. -/
def init : State := ⟨0x67452301, 0xefcdab89, 0x98badcfe, 0x10325476, 0xc3d2e1f0⟩

/-- Extend a message schedule by `n` words. -/
def schedule (w : List Nat) : Nat → List Nat
  | 0 => w
  | n + 1 =>
    let v := schedule w n
    let i := v.length
    v ++ [rotl (v.getD (i - 3) 0 ^^^ v.getD (i - 8) 0 ^^^ v.getD (i - 14) 0 ^^^ v.getD (i - 16) 0) 1]

/-- The round function and constant of round `i`. -/
def fk (i b c d : Nat) : Nat × Nat :=
  if i < 20 then ((b &&& c) ||| (not32 b &&& d), 0x5a827999)
  else if i < 40 then (b ^^^ c ^^^ d, 0x6ed9eba1)
  else if i < 60 then ((b &&& c) ||| (b &&& d) ||| (c &&& d), 0x8f1bbcdc)
  else (b ^^^ c ^^^ d, 0xca62c1d6)

/-- One round of the compression function, on a round index and a schedule word. -/
def round (s : State) (iw : Nat × Nat) : State :=
  let r := fk iw.1 s.b s.c s.d
  ⟨w32 (rotl s.a 5 + r.1 + s.e + r.2 + iw.2), s.a, rotl s.b 30, s.c, s.d⟩

/-- The compression function on one 64-byte block. -/
def block (hs : State) (blk : List Byte) : State :=
  let w := schedule ((chunks 4 16 blk).map beWord) 64
  let r := ((List.range 80).zip w).foldl round hs
  ⟨w32 (hs.a + r.a), w32 (hs.b + r.b), w32 (hs.c + r.c), w32 (hs.d + r.d), w32 (hs.e + r.e)⟩

/-- The function `sha1.Sum`: the SHA-1 digest (20 bytes) of a message. -/
def Sum (msg : List Byte) : List Byte :=
  let p := shaPad msg
  let r := (chunks 64 (p.length / 64) p).foldl block init
  beBytes 4 r.a ++ beBytes 4 r.b ++ beBytes 4 r.c ++ beBytes 4 r.d ++ beBytes 4 r.e

end sha1

/-! ## Package github.com/google/uuid -/

namespace uuid

/-- The type `UUID`, an array of sixteen bytes. -/
structure UUID where
  bytes : List Byte
  size : bytes.length = 16
deriving DecidableEq

/-- The constant `uuid.Nil`: the all-zero UUID. -/
def Nil : UUID := ⟨List.replicate 16 0, rfl⟩

/-- The constant `uuid.NameSpaceOID`, `6ba7b812-9dad-11d1-80b4-00c04fd430c8`. -/
def NameSpaceOID : UUID :=
  ⟨[0x6b, 0xa7, 0xb8, 0x12, 0x9d, 0xad, 0x11, 0xd1, 0x80, 0xb4, 0x00, 0xc0, 0x4f, 0xd4, 0x30, 0xc8],
    rfl⟩

/-- The method `String`: the canonical form `xxxxxxxx-xxxx-xxxx-xxxx-xxxxxxxxxxxx`,
the hexadecimal digits of bytes 0-3, 4-5, 6-7, 8-9 and 10-15 joined by hyphens. -/
def UUID.String (u : UUID) : GoString :=
  hex.EncodeToString (u.bytes.take 4) ++ chr '-' ::
  hex.EncodeToString ((u.bytes.drop 4).take 2) ++ chr '-' ::
  hex.EncodeToString ((u.bytes.drop 6).take 2) ++ chr '-' ::
  hex.EncodeToString ((u.bytes.drop 8).take 2) ++ chr '-' ::
  hex.EncodeToString (u.bytes.drop 10)

/-- The method `Version`: the high nibble of byte 6. -/
def UUID.Version (u : UUID) : Nat := (u.bytes.getD 6 0).val >>> 4

/-- The function `uuid.NewHash`, the hash given by its digest function: the first
sixteen bytes of the digest of the namespace followed by the data, with the
version written into the high nibble of byte 6 and the RFC 4122 variant into the
top two bits of byte 8. -/
def NewHash (sum : List Byte → List Byte) (space : UUID) (data : List Byte) (version : Nat) :
    UUID :=
  let s := sum (space.bytes ++ data)
  let u0 := s.take 16 ++ List.replicate (16 - s.length) 0
  let u1 := u0.set 6 (Fin.ofNat (((u0.getD 6 0).val &&& 0x0f) ||| ((version &&& 0xf) <<< 4)))
  let u2 := u1.set 8 (Fin.ofNat (((u1.getD 8 0).val &&& 0x3f) ||| 0x80))
  ⟨u2, by simp only [u2, u1, u0, List.length_set, List.length_append, List.length_take,
      List.length_replicate]; omega⟩

/-- The function `uuid.NewSHA1`: the version-5 UUID of `data` in the namespace `space`. -/
def NewSHA1 (space : UUID) (data : List Byte) : UUID := NewHash sha1.Sum space data 5

end uuid

/-! ## Package time -/

namespace time

/-- A location, here a zone with a fixed offset in seconds east of UTC. -/
structure Location where
  name : GoString
  offset : Int
deriving DecidableEq

/-- The location `time.UTC`. -/
def UTC : Location := ⟨str "UTC", 0⟩

/-- The function `time.FixedZone`. -/
def FixedZone (name : GoString) (offset : Int) : Location := ⟨name, offset⟩

/-- A `time.Time` without a monotonic clock reading: an instant, given by the
seconds elapsed since January 1 of year 1, 00:00:00 UTC, which Go keeps in a
signed 64-bit integer, and the nanoseconds within that second, presented in a
location. -/
structure Time where
  sec : Int
  nsec : Fin 1000000000
  loc : Location
  sec_range : -9223372036854775808 ≤ sec ∧ sec < 9223372036854775808 := by decide
deriving DecidableEq

/-- The conversion of an integer to `int64`: its value modulo 2^64 in the signed
range. -/
def wrap64 (x : Int) : Int :=
  (x + 9223372036854775808) % 18446744073709551616 - 9223372036854775808

/-- The duration `time.Second`, in nanoseconds. -/
def Second : Int := 1000000000

/-- The method `IsZero`: the instant is January 1, year 1, 00:00:00 UTC. -/
def Time.IsZero (t : Time) : Bool := t.sec == 0 && t.nsec.val == 0

/-- The method `UTC`: the same instant with the location set to UTC. -/
def Time.UTC (t : Time) : Time := { t with loc := Job.time.UTC }

/-- The method `addSec`, on the seconds since year 1: the sum `sec + d` in 64
bits when it does not overflow; when it does, the largest 64-bit second for a
positive `d` and the negative of it for a negative `d`. -/
def addSec (sec d : Int) : Int :=
  if decide (wrap64 (sec + d) > sec) = decide (d > 0) then wrap64 (sec + d)
  else if d > 0 then 9223372036854775807
  else -9223372036854775807

/-- The method `Add` for a duration of `d` nanoseconds (a 64-bit count): the
nanoseconds are added and carried into the seconds, and the seconds are added by
`addSec`; the location is kept. -/
def Time.Add (t : Time) (d : Int) : Time :=
  let dsec := d.tdiv 1000000000
  let nsec : Int := t.nsec.val + d.tmod 1000000000
  if nsec ≥ 1000000000 then
    { sec := addSec t.sec (dsec + 1), nsec := Fin.ofNat (nsec - 1000000000).toNat, loc := t.loc,
      sec_range := by have h := t.sec_range; simp only [addSec, wrap64]; split_ifs <;> omega }
  else if nsec < 0 then
    { sec := addSec t.sec (dsec - 1), nsec := Fin.ofNat (nsec + 1000000000).toNat, loc := t.loc,
      sec_range := by have h := t.sec_range; simp only [addSec, wrap64]; split_ifs <;> omega }
  else
    { sec := addSec t.sec dsec, nsec := Fin.ofNat nsec.toNat, loc := t.loc,
      sec_range := by have h := t.sec_range; simp only [addSec, wrap64]; split_ifs <;> omega }

/-- The function `isLeap`. -/
def isLeap (year : Int) : Bool := year % 4 == 0 && (year % 100 != 0 || year % 400 == 0)

/-- The table `daysBefore`: the days of a non-leap year before each month. -/
def daysBefore : List Nat := [0, 31, 59, 90, 120, 151, 181, 212, 243, 273, 304, 334, 365]

/-- The constant `absoluteZeroYear`: the year of the zero of the absolute
seconds. -/
def absoluteZeroYear : Int := -292277022399

/-- The constant `internalToAbsolute`: the seconds from January 1 of the
absolute zero year to January 1 of year 1. -/
def internalToAbsolute : Int := 9223371966579724800

/-- The method `abs`: the seconds since January 1 of the absolute zero year on
the clock of the location, as a `uint64`; the conversion wraps for an earlier
instant. -/
def Time.abs (t : Time) : Nat :=
  ((t.sec + t.loc.offset + internalToAbsolute) % 18446744073709551616).toNat

/-- The function `absDate` up to the day of the year: from the days since the
absolute zero year, cut off 400-year cycles, then 100-year cycles (the last of
which has one day more), then 4-year cycles, then years; the year and the
zero-based day of the year. -/
def absYear (days : Nat) : Int × Nat :=
  let n400 := days / 146097
  let d := days - 146097 * n400
  let n100 := d / 36524 - d / 36524 / 4
  let d := d - 36524 * n100
  let n4 := d / 1461
  let d := d - 1461 * n4
  let n1 := d / 365 - d / 365 / 4
  let d := d - 365 * n1
  (((400 * n400 + 100 * n100 + 4 * n4 + n1 : Nat) : Int) + absoluteZeroYear, d)

/-- The month and the day of the month of a zero-based day of the year. -/
def monthDay (leap : Bool) (yday : Nat) : Nat × Nat :=
  if leap && yday == 59 then (2, 29)
  else
    let day := if leap && yday > 59 then yday - 1 else yday
    let month := day / 31
    let last := daysBefore.getD (month + 1) 0
    if day ≥ last then (month + 2, day - last + 1)
    else (month + 1, day - daysBefore.getD month 0 + 1)

/-- The function `appendInt`: a minus sign for a negative number, then its
absolute value in decimal, padded with zeros on the left to `width` digits. -/
def appendInt (x : Int) (width : Nat) : GoString :=
  let ds := fmt.decimal x.natAbs
  let padded := List.replicate (width - ds.length) (chr '0') ++ ds
  if x < 0 then chr '-' :: padded else padded

/-- Remove the trailing bytes `0` of a string. -/
def trimZeros (b : GoString) : GoString := (b.reverse.dropWhile (· == chr '0')).reverse

/-- The function `appendNano` for the fraction `.999999999`: nothing when the
nanoseconds are zero, otherwise a dot and the nine digits without trailing zeros. -/
def appendNano (nanosec : Nat) : GoString :=
  if nanosec = 0 then [] else chr '.' :: trimZeros (appendInt nanosec 9)

/-- The zone element `Z07:00`: `Z` for offset zero, otherwise sign, hours and minutes. -/
def appendZone (offset : Int) : GoString :=
  if offset = 0 then [chr 'Z']
  else
    let zone := offset.tdiv 60
    if zone < 0 then
      chr '-' :: appendInt ((-zone).tdiv 60) 2 ++ chr ':' :: appendInt ((-zone).tmod 60) 2
    else
      chr '+' :: appendInt (zone.tdiv 60) 2 ++ chr ':' :: appendInt (zone.tmod 60) 2

/-- The layouts of `Format` that the package uses. -/
inductive Layout where
  | RFC3339Nano
deriving DecidableEq

/-- The method `Format` with layout `time.RFC3339Nano`,
`2006-01-02T15:04:05.999999999Z07:00`: the civil date and clock time of the
absolute seconds of `t`, the fraction, and the zone. -/
def Time.Format (t : Time) (layout : Layout) : GoString :=
  match layout with
  | .RFC3339Nano =>
    let abs := t.abs
    let yd := absYear (abs / 86400)
    let md := monthDay (isLeap yd.1) yd.2
    let clock := abs % 86400
    appendInt yd.1 4 ++ chr '-' :: appendInt md.1 2 ++ chr '-' :: appendInt md.2 2 ++
    chr 'T' :: appendInt (clock / 3600) 2 ++ chr ':' :: appendInt (clock % 3600 / 60) 2 ++
    chr ':' :: appendInt (clock % 60) 2 ++ appendNano t.nsec.val ++ appendZone t.loc.offset

end time

/-! ## Package job: `job_v1.go` -/

/-- The constant `JobSchemaVersionV1`. -/
def JobSchemaVersionV1 : Int := 1

/-- The string type `Priority`. -/
abbrev Priority := GoString

/-- The constant `PriorityHigh`. -/
def PriorityHigh : Priority := str "high"

/-- The constant `PriorityNormal`. -/
def PriorityNormal : Priority := str "normal"

/-- The struct `ScriptRef`. -/
structure ScriptRef where
  ScriptID : uuid.UUID
  Version : Int
  Sha256 : GoString
deriving DecidableEq

/-- The struct `Limits`. -/
structure Limits where
  TimeoutSeconds : Int
  MaxVUs : Int
  MaxDurationSeconds : Int
  MemoryMB : Int
  CPUMillicores : Int
  MaxLogBytes : Int
  MaxArtifactBytes : Int
deriving DecidableEq

/-- A value of type `interface{}` as it occurs in a job: a JSON-like value. -/
inductive Any where
  | null
  | bool (b : Bool)
  | number (n : Int)
  | string (s : GoString)
  | array (xs : List Any)
  | object (fields : List (GoString × Any))

/-- The struct `AuthConfig`. -/
structure AuthConfig where
  AuthType : GoString
  Username : GoString
  Password : GoString
  Token : GoString
  APIKey : GoString
  APIKeyHeader : GoString

/-- The struct `EnvironmentConfig`; a map is a list of key-value pairs. -/
structure EnvironmentConfig where
  BaseURL : GoString
  Headers : List (GoString × GoString)
  AuthConfig : AuthConfig
  Timeout : Int

/-- The struct `Stage`. -/
structure Stage where
  Duration : GoString
  Target : Int

/-- The struct `LoadConfig`. -/
structure LoadConfig where
  VUs : Int
  Duration : GoString
  Stages : List Stage
  Iterations : Int
  Rate : Int

/-- The struct `ExecutionConfigV1`. -/
structure ExecutionConfigV1 where
  UserID : GoString
  Region : GoString
  Environment : EnvironmentConfig
  Variables : List (GoString × Any)
  LoadConfig : LoadConfig
  OverrideVars : List (GoString × GoString)
  DryRun : Bool
  ScriptType : GoString
  BrowserEnabled : Bool

/-- The struct `ExecutionJobV1`; a pointer field is an `Option`. -/
structure ExecutionJobV1 where
  JobSchemaVersion : Int
  JobID : uuid.UUID
  ExecutionID : uuid.UUID
  TenantID : GoString
  TraceParent : GoString
  IdempotencyKey : GoString
  TriggerType : GoString
  ScheduledFor : Option time.Time
  Priority : Priority
  Attempt : Int
  MaxAttempts : Int
  NextVisibleAt : Option time.Time
  ScriptRef : ScriptRef
  ScenarioID : Option uuid.UUID
  Config : ExecutionConfigV1
  Limits : Limits
  CreatedAt : time.Time

/-- The method `ValidateBasic`: the checks of `job_v1.go` in their order, each
returning its error at once. -/
def ExecutionJobV1.ValidateBasic (j : ExecutionJobV1) : Option GoError :=
  if j.JobSchemaVersion ≠ JobSchemaVersionV1 then
    some (fmt.Errorf (str "unsupported job_schema_version: " ++ fmt.formatInt j.JobSchemaVersion))
  else if j.JobID = uuid.Nil then
    some (fmt.Errorf (str "job_id is required"))
  else if j.ExecutionID = uuid.Nil then
    some (fmt.Errorf (str "execution_id is required"))
  else if j.TenantID = str "" then
    some (fmt.Errorf (str "tenant_id is required"))
  else if j.IdempotencyKey = str "" then
    some (fmt.Errorf (str "idempotency_key is required"))
  else if j.ScriptRef.ScriptID = uuid.Nil then
    some (fmt.Errorf (str "script_ref.script_id is required"))
  else if j.CreatedAt.IsZero then
    some (fmt.Errorf (str "created_at is required"))
  else
    none

/-- The running hash of `ComputeIdempotencyKey` after its nine writes, in the
order of the source (lines 142 to 151 of `job_v1.go`). -/
def ComputeIdempotencyKey.hash (tenantID : GoString) (scriptRef : ScriptRef)
    (scheduledForUTC : time.Time) (triggerType : GoString) : sha256.Hash :=
  let h := sha256.New
  let h := h.Write tenantID
  let h := h.Write [0]
  let h := h.Write scriptRef.ScriptID.String
  let h := h.Write [0]
  let h := h.Write (fmt.formatInt scriptRef.Version)
  let h := h.Write [0]
  let h := h.Write (scheduledForUTC.UTC.Format .RFC3339Nano)
  let h := h.Write [0]
  h.Write triggerType

/-- The function `ComputeIdempotencyKey`: the hexadecimal encoding of the digest
of the running hash (line 152 of `job_v1.go`). -/
def ComputeIdempotencyKey (tenantID : GoString) (scriptRef : ScriptRef)
    (scheduledForUTC : time.Time) (triggerType : GoString) : GoString :=
  hex.EncodeToString ((ComputeIdempotencyKey.hash tenantID scriptRef scheduledForUTC triggerType).Sum [])

/-- The function `DeterministicExecutionID`. -/
def DeterministicExecutionID (idempotencyKey : GoString) : uuid.UUID :=
  uuid.NewSHA1 uuid.NameSpaceOID idempotencyKey

/-! ## Package job: `streams.go` -/

/-- The string type `WorkerPool`. -/
abbrev WorkerPool := GoString

/-- The constant `WorkerPoolAPI`. -/
def WorkerPoolAPI : WorkerPool := str "api"

/-- The constant `WorkerPoolBrowser`. -/
def WorkerPoolBrowser : WorkerPool := str "browser"

/-- The function `StreamName`.  The two results of the Go function are a pair.
The verb `%q` is `strconv.Quote`, whose result on non-ASCII input depends on the
Unicode tables of the Go release; it is the argument `Quote`. -/
def StreamName (Quote : GoString → GoString) (pool : WorkerPool) (priority : Priority) :
    GoString × Option GoError :=
  if pool = WorkerPoolAPI ∨ pool = WorkerPoolBrowser then
    if priority = PriorityHigh ∨ priority = PriorityNormal then
      (str "synthetic:jobs:" ++ pool ++ str ":" ++ priority, none)
    else
      (str "", some (fmt.Errorf (str "invalid priority: " ++ Quote priority)))
  else
    (str "", some (fmt.Errorf (str "invalid worker pool: " ++ Quote pool)))

/-- The constant `DLQStream`. -/
def DLQStream : GoString := str "synthetic:jobs:dlq"

/-- The constant `DelayedZSet`. -/
def DelayedZSet : GoString := str "synthetic:jobs:delayed"

/-- The constant `StreamFieldPayload`. -/
def StreamFieldPayload : GoString := str "payload"

/-- The constant `StreamFieldError`. -/
def StreamFieldError : GoString := str "error"

/-- The constant `StreamFieldErrorType`. -/
def StreamFieldErrorType : GoString := str "error_type"

/-! ## Values of the tests -/

/-- The script reference of `TestComputeIdempotencyKey_DeterministicAndSensitiveToInputs`:
script id `11111111-1111-1111-1111-111111111111`, version 7. -/
def testScriptRef : ScriptRef := ⟨⟨List.replicate 16 0x11, rfl⟩, 7, str "abc"⟩

/-- The time of the same test, `time.Date(2026, 2, 6, 12, 34, 56, 789000000,
time.FixedZone("X", -3*3600))`: 2026-02-06 12:34:56.789 in a zone three hours west
of UTC, which is second 63905988896 since year 1. -/
def testScheduledFor : time.Time :=
  ⟨63905988896, 789000000, time.FixedZone (str "X") (-3 * 3600), by decide⟩

/-- The same instant in UTC, 2026-02-06 15:34:56.789. -/
def testScheduledForUTC : time.Time := ⟨63905988896, 789000000, time.UTC, by decide⟩

/-- An execution configuration with every field at its zero value. -/
def zeroConfig : ExecutionConfigV1 :=
  ⟨[], [], ⟨[], [], ⟨[], [], [], [], [], []⟩, 0⟩, [], ⟨0, [], [], 0, 0⟩, [], false, [], false⟩

/-- The job of `TestExecutionJobV1_ValidateBasic`, with fixed values in place of
the random ids and of the clock. -/
def testJob : ExecutionJobV1 where
  JobSchemaVersion := JobSchemaVersionV1
  JobID := ⟨List.replicate 16 0xa1, rfl⟩
  ExecutionID := ⟨List.replicate 16 0xb2, rfl⟩
  TenantID := str "t"
  TraceParent := str ""
  IdempotencyKey := str "k"
  TriggerType := str "manual"
  ScheduledFor := none
  Priority := PriorityHigh
  Attempt := 1
  MaxAttempts := 10
  NextVisibleAt := none
  ScriptRef := ⟨⟨List.replicate 16 0xc3, rfl⟩, 1, str ""⟩
  ScenarioID := none
  Config := zeroConfig
  Limits := ⟨0, 0, 0, 0, 0, 0, 0⟩
  CreatedAt := ⟨63905988896, 0, time.UTC, by decide⟩

/-- A job with every field at its zero value. -/
def zeroJob : ExecutionJobV1 where
  JobSchemaVersion := 0
  JobID := uuid.Nil
  ExecutionID := uuid.Nil
  TenantID := str ""
  TraceParent := str ""
  IdempotencyKey := str ""
  TriggerType := str ""
  ScheduledFor := none
  Priority := str ""
  Attempt := 0
  MaxAttempts := 0
  NextVisibleAt := none
  ScriptRef := ⟨uuid.Nil, 0, str ""⟩
  ScenarioID := none
  Config := zeroConfig
  Limits := ⟨0, 0, 0, 0, 0, 0, 0⟩
  CreatedAt := ⟨0, 0, time.UTC, by decide⟩

/-- The rendering of `%q` on a string of printable ASCII bytes other than the
double quote and the backslash: the string between double quotes. -/
def quotePlain (s : GoString) : GoString := chr '"' :: s ++ [chr '"']

/-! ## Package encoding/json and the field tags of `job_v1.go` -/

namespace json

/-- What `isEmptyValue` reads of a Go value: its kind, and the length, number,
truth value or nil-ness that the kind has. -/
inductive Reflect where
  | String (s : GoString)
  | Int (n : Int)
  | Bool (b : Bool)
  | Pointer (isNil : Bool)
  | Map (len : Nat)
  | Slice (len : Nat)
  | Array (len : Nat)
  | Struct

/-- The function `isEmptyValue`, which decides what `omitempty` omits: an empty
array, map, slice or string, false, zero, a nil pointer; no struct is empty. -/
def isEmptyValue : Reflect → Bool
  | .String s => s.length == 0
  | .Int n => n == 0
  | .Bool b => !b
  | .Pointer isNil => isNil
  | .Map len => len == 0
  | .Slice len => len == 0
  | .Array len => len == 0
  | .Struct => false

/-- One field of a struct as the encoder sees it: the name and the `omitempty`
option of its tag, the value as `isEmptyValue` reads it, and the encoding of the
value, `none` when the encoder of the value fails. -/
structure Field where
  name : GoString
  omitEmpty : Bool
  value : Reflect
  encoded : Option Any

/-- The members of the object that the struct encoder writes: the fields in
their order, without those that have `omitempty` and an empty value; an error of
the encoder of a written field is an error of the struct. -/
def encodeFields : List Field → Option (List (GoString × Any))
  | [] => some []
  | f :: fs =>
    if f.omitEmpty && isEmptyValue f.value then encodeFields fs
    else
      match f.encoded, encodeFields fs with
      | some v, some rest => some ((f.name, v) :: rest)
      | _, _ => none

/-- The encoding of a struct: the object of its written fields. -/
def encodeStruct (fields : List Field) : Option Any := (encodeFields fields).map Any.object

/-- The encoding of a `map[string]string`: the object of its entries. -/
def encodeStringMap (m : List (GoString × GoString)) : Any :=
  .object (m.map fun kv => (kv.1, Any.string kv.2))

/-- The encoding of a UUID, which marshals as text: its canonical form as a string. -/
def encodeUUID (u : uuid.UUID) : Any := .string u.String

/-- The encoding of an optional value behind a pointer: `null` for nil. -/
def encodePointer {α : Type} (encode : α → Option Any) : Option α → Option Any
  | none => some .null
  | some v => encode v

/-- The fields of `ScriptRef`, from its tags. -/
def ScriptRef.fields (r : ScriptRef) : List Field :=
  [⟨str "script_id", false, .Array 16, some (encodeUUID r.ScriptID)⟩,
   ⟨str "version", false, .Int r.Version, some (.number r.Version)⟩,
   ⟨str "sha256", true, .String r.Sha256, some (.string r.Sha256)⟩]

/-- The fields of `Limits`, from its tags. -/
def Limits.fields (l : Limits) : List Field :=
  [⟨str "timeout_seconds", true, .Int l.TimeoutSeconds, some (.number l.TimeoutSeconds)⟩,
   ⟨str "max_vus", true, .Int l.MaxVUs, some (.number l.MaxVUs)⟩,
   ⟨str "max_duration_seconds", true, .Int l.MaxDurationSeconds,
     some (.number l.MaxDurationSeconds)⟩,
   ⟨str "memory_mb", true, .Int l.MemoryMB, some (.number l.MemoryMB)⟩,
   ⟨str "cpu_millicores", true, .Int l.CPUMillicores, some (.number l.CPUMillicores)⟩,
   ⟨str "max_log_bytes", true, .Int l.MaxLogBytes, some (.number l.MaxLogBytes)⟩,
   ⟨str "max_artifact_bytes", true, .Int l.MaxArtifactBytes, some (.number l.MaxArtifactBytes)⟩]

/-- The fields of `AuthConfig`, from its tags. -/
def AuthConfig.fields (a : AuthConfig) : List Field :=
  [⟨str "type", true, .String a.AuthType, some (.string a.AuthType)⟩,
   ⟨str "username", true, .String a.Username, some (.string a.Username)⟩,
   ⟨str "password", true, .String a.Password, some (.string a.Password)⟩,
   ⟨str "token", true, .String a.Token, some (.string a.Token)⟩,
   ⟨str "api_key", true, .String a.APIKey, some (.string a.APIKey)⟩,
   ⟨str "api_key_header", true, .String a.APIKeyHeader, some (.string a.APIKeyHeader)⟩]

/-- The fields of `EnvironmentConfig`, from its tags. -/
def EnvironmentConfig.fields (e : EnvironmentConfig) : List Field :=
  [⟨str "base_url", false, .String e.BaseURL, some (.string e.BaseURL)⟩,
   ⟨str "headers", true, .Map e.Headers.length, some (encodeStringMap e.Headers)⟩,
   ⟨str "auth_config", true, .Struct, encodeStruct (AuthConfig.fields e.AuthConfig)⟩,
   ⟨str "timeout", true, .Int e.Timeout, some (.number e.Timeout)⟩]

/-- The fields of `Stage`, from its tags. -/
def Stage.fields (s : Stage) : List Field :=
  [⟨str "duration", false, .String s.Duration, some (.string s.Duration)⟩,
   ⟨str "target", false, .Int s.Target, some (.number s.Target)⟩]

/-- The encoding of a slice of stages: the array of their encodings. -/
def encodeStages : List Stage → Option (List Any)
  | [] => some []
  | s :: rest =>
    match encodeStruct (Stage.fields s), encodeStages rest with
    | some v, some vs => some (v :: vs)
    | _, _ => none

/-- The fields of `LoadConfig`, from its tags. -/
def LoadConfig.fields (l : LoadConfig) : List Field :=
  [⟨str "vus", true, .Int l.VUs, some (.number l.VUs)⟩,
   ⟨str "duration", true, .String l.Duration, some (.string l.Duration)⟩,
   ⟨str "stages", true, .Slice l.Stages.length, (encodeStages l.Stages).map Any.array⟩,
   ⟨str "iterations", true, .Int l.Iterations, some (.number l.Iterations)⟩,
   ⟨str "rate", true, .Int l.Rate, some (.number l.Rate)⟩]

/-- The fields of `ExecutionConfigV1`, from its tags. -/
def ExecutionConfigV1.fields (c : ExecutionConfigV1) : List Field :=
  [⟨str "user_id", true, .String c.UserID, some (.string c.UserID)⟩,
   ⟨str "region", true, .String c.Region, some (.string c.Region)⟩,
   ⟨str "environment", false, .Struct, encodeStruct (EnvironmentConfig.fields c.Environment)⟩,
   ⟨str "variables", true, .Map c.Variables.length, some (.object c.Variables)⟩,
   ⟨str "load_config", false, .Struct, encodeStruct (LoadConfig.fields c.LoadConfig)⟩,
   ⟨str "override_vars", true, .Map c.OverrideVars.length, some (encodeStringMap c.OverrideVars)⟩,
   ⟨str "dry_run", true, .Bool c.DryRun, some (.bool c.DryRun)⟩,
   ⟨str "script_type", true, .String c.ScriptType, some (.string c.ScriptType)⟩,
   ⟨str "browser_enabled", true, .Bool c.BrowserEnabled, some (.bool c.BrowserEnabled)⟩]

/-- The fields of `ExecutionJobV1`, from its tags.  The method `MarshalJSON` of
`time.Time`, whose range checks differ between Go releases, is the argument
`encodeTime`. -/
def ExecutionJobV1.fields (encodeTime : time.Time → Option Any) (j : ExecutionJobV1) :
    List Field :=
  [⟨str "job_schema_version", false, .Int j.JobSchemaVersion, some (.number j.JobSchemaVersion)⟩,
   ⟨str "job_id", false, .Array 16, some (encodeUUID j.JobID)⟩,
   ⟨str "execution_id", false, .Array 16, some (encodeUUID j.ExecutionID)⟩,
   ⟨str "tenant_id", false, .String j.TenantID, some (.string j.TenantID)⟩,
   ⟨str "traceparent", true, .String j.TraceParent, some (.string j.TraceParent)⟩,
   ⟨str "idempotency_key", false, .String j.IdempotencyKey, some (.string j.IdempotencyKey)⟩,
   ⟨str "trigger_type", false, .String j.TriggerType, some (.string j.TriggerType)⟩,
   ⟨str "scheduled_for", true, .Pointer j.ScheduledFor.isNone,
     encodePointer encodeTime j.ScheduledFor⟩,
   ⟨str "priority", false, .String j.Priority, some (.string j.Priority)⟩,
   ⟨str "attempt", false, .Int j.Attempt, some (.number j.Attempt)⟩,
   ⟨str "max_attempts", false, .Int j.MaxAttempts, some (.number j.MaxAttempts)⟩,
   ⟨str "next_visible_at", true, .Pointer j.NextVisibleAt.isNone,
     encodePointer encodeTime j.NextVisibleAt⟩,
   ⟨str "script_ref", false, .Struct, encodeStruct (ScriptRef.fields j.ScriptRef)⟩,
   ⟨str "scenario_id", true, .Pointer j.ScenarioID.isNone,
     encodePointer (fun u => some (encodeUUID u)) j.ScenarioID⟩,
   ⟨str "config", false, .Struct, encodeStruct (ExecutionConfigV1.fields j.Config)⟩,
   ⟨str "limits", true, .Struct, encodeStruct (Limits.fields j.Limits)⟩,
   ⟨str "created_at", false, .Struct, encodeTime j.CreatedAt⟩]

/-- The value that `json.Marshal` encodes for a job, before it is written as
text; `none` when the encoding fails. -/
def Marshal (encodeTime : time.Time → Option Any) (j : ExecutionJobV1) : Option Any :=
  encodeStruct (ExecutionJobV1.fields encodeTime j)

end json

/-- The keys of a JSON object, in their order. -/
def Any.keys : Any → List GoString
  | .object fields => fields.map Prod.fst
  | _ => []

/-- The value of a key of a JSON object. -/
def Any.get (v : Any) (key : GoString) : Option Any :=
  match v with
  | .object fields => (fields.find? fun kv => kv.1 == key).map Prod.snd
  | _ => none

/-- An encoding of a time that never fails: the layout RFC3339Nano as a string. -/
def encodeTimeRFC3339 (t : time.Time) : Option Any := some (.string (t.Format .RFC3339Nano))

/-! ## Notions used in the statements and proofs -/

/-- A byte that is an ASCII decimal digit. -/
def isDigit (b : Byte) : Prop := 48 ≤ b.val ∧ b.val ≤ 57

/-- The number that a string of ASCII decimal digits writes. -/
def digitsValue (bs : GoString) : Nat := bs.foldl (fun a b => 10 * a + (b.val - 48)) 0

/-- The checks that the claim on the order of validation lists, in its order:
the wire name of the field, whether the job violates the check, and the error
that reports the violation.  This list follows the words of the specification;
`ValidateBasic` above follows the source. -/
def checksInOrder (j : ExecutionJobV1) : List (GoString × Bool × GoError) :=
  [(str "job_schema_version", decide (j.JobSchemaVersion ≠ 1),
      ⟨str "unsupported job_schema_version: " ++ fmt.formatInt j.JobSchemaVersion⟩),
   (str "job_id", decide (j.JobID = uuid.Nil), ⟨str "job_id is required"⟩),
   (str "execution_id", decide (j.ExecutionID = uuid.Nil), ⟨str "execution_id is required"⟩),
   (str "tenant_id", decide (j.TenantID = []), ⟨str "tenant_id is required"⟩),
   (str "idempotency_key", decide (j.IdempotencyKey = []), ⟨str "idempotency_key is required"⟩),
   (str "script_id", decide (j.ScriptRef.ScriptID = uuid.Nil),
      ⟨str "script_ref.script_id is required"⟩),
   (str "created_at", j.CreatedAt.IsZero, ⟨str "created_at is required"⟩)]

/-- The first violated check of the list, with the wire name of its field and
its error; `none` when no check is violated. -/
def firstViolation (j : ExecutionJobV1) : Option (GoString × GoError) :=
  ((checksInOrder j).find? fun c => c.2.1).map fun c => (c.1, c.2.2)

/-! ## Theorems -/

/-! ### Validation -/

theorem str_empty : str "" = [] := rfl

/-- C1. `ValidateBasic` returns no error exactly for the jobs with schema version
1, non-nil job id, execution id and script id, non-empty tenant id and idempotency
key, and non-zero creation time; the job of the test passes; and setting the
version to any other value, or any one of the six required fields to its zero
value, makes any job fail. -/
theorem validateBasic_accepts_exactly :
    (∀ j : ExecutionJobV1, j.ValidateBasic = none ↔
      (j.JobSchemaVersion = 1 ∧ j.JobID ≠ uuid.Nil ∧ j.ExecutionID ≠ uuid.Nil ∧
        j.TenantID ≠ [] ∧ j.IdempotencyKey ≠ [] ∧ j.ScriptRef.ScriptID ≠ uuid.Nil ∧
        j.CreatedAt.IsZero = false)) ∧
    testJob.ValidateBasic = none ∧
    (∀ (j : ExecutionJobV1) (v : Int), v ≠ 1 →
      ({ j with JobSchemaVersion := v }).ValidateBasic ≠ none) ∧
    (∀ j : ExecutionJobV1, ({ j with JobID := uuid.Nil }).ValidateBasic ≠ none) ∧
    (∀ j : ExecutionJobV1, ({ j with ExecutionID := uuid.Nil }).ValidateBasic ≠ none) ∧
    (∀ j : ExecutionJobV1, ({ j with TenantID := [] }).ValidateBasic ≠ none) ∧
    (∀ j : ExecutionJobV1, ({ j with IdempotencyKey := [] }).ValidateBasic ≠ none) ∧
    (∀ j : ExecutionJobV1,
      ({ j with ScriptRef := { j.ScriptRef with ScriptID := uuid.Nil } }).ValidateBasic ≠ none) ∧
    (∀ j : ExecutionJobV1,
      ({ j with CreatedAt := ⟨0, 0, time.UTC, by decide⟩ }).ValidateBasic ≠ none) := by
  have key : ∀ j : ExecutionJobV1, j.ValidateBasic = none ↔
      (j.JobSchemaVersion = 1 ∧ j.JobID ≠ uuid.Nil ∧ j.ExecutionID ≠ uuid.Nil ∧
        j.TenantID ≠ [] ∧ j.IdempotencyKey ≠ [] ∧ j.ScriptRef.ScriptID ≠ uuid.Nil ∧
        j.CreatedAt.IsZero = false) := by
    intro j
    simp only [ExecutionJobV1.ValidateBasic, JobSchemaVersionV1, str_empty]
    split_ifs <;> simp_all
  refine ⟨key, by decide, ?_, ?_, ?_, ?_, ?_, ?_, ?_⟩
  · intro j v hv h
    exact hv ((key _).1 h).1
  · intro j h
    exact ((key _).1 h).2.1 rfl
  · intro j h
    exact ((key _).1 h).2.2.1 rfl
  · intro j h
    exact ((key _).1 h).2.2.2.1 rfl
  · intro j h
    exact ((key _).1 h).2.2.2.2.1 rfl
  · intro j h
    exact ((key _).1 h).2.2.2.2.2.1 rfl
  · intro j h
    have hz := ((key _).1 h).2.2.2.2.2.2
    simp [time.Time.IsZero] at hz

/-! ### Stream names -/

theorem streamName_ok (Quote : GoString → GoString) (p q : GoString)
    (hp : p = str "api" ∨ p = str "browser") (hq : q = str "high" ∨ q = str "normal") :
    StreamName Quote p q = (str "synthetic:jobs:" ++ p ++ str ":" ++ q, none) := by
  simp only [StreamName, WorkerPoolAPI, WorkerPoolBrowser, PriorityHigh, PriorityNormal]
  rw [if_pos hp, if_pos hq]

theorem streamName_bad_pool (Quote : GoString → GoString) (p q : GoString)
    (hp : ¬ (p = str "api" ∨ p = str "browser")) :
    StreamName Quote p q = ([], some (fmt.Errorf (str "invalid worker pool: " ++ Quote p))) := by
  simp only [StreamName, WorkerPoolAPI, WorkerPoolBrowser, PriorityHigh, PriorityNormal]
  rw [if_neg hp]
  rfl

theorem streamName_bad_priority (Quote : GoString → GoString) (p q : GoString)
    (hp : p = str "api" ∨ p = str "browser") (hq : ¬ (q = str "high" ∨ q = str "normal")) :
    StreamName Quote p q = ([], some (fmt.Errorf (str "invalid priority: " ++ Quote q))) := by
  simp only [StreamName, WorkerPoolAPI, WorkerPoolBrowser, PriorityHigh, PriorityNormal]
  rw [if_pos hp, if_neg hq]
  rfl

/-- C2. `StreamName` returns a name without error exactly on the pools `api`,
`browser` and the priorities `high`, `normal`; there the name is
`synthetic:jobs:<pool>:<priority>`, so the names it can return are exactly the
four of the list; on every other pool or priority it returns an error. -/
theorem streamName_closed_product (Quote : GoString → GoString) :
    (∀ p q : GoString, (StreamName Quote p q).2 = none ↔
      ((p = str "api" ∨ p = str "browser") ∧ (q = str "high" ∨ q = str "normal"))) ∧
    (∀ p q : GoString, (p = str "api" ∨ p = str "browser") → (q = str "high" ∨ q = str "normal") →
      StreamName Quote p q = (str "synthetic:jobs:" ++ p ++ str ":" ++ q, none)) ∧
    (∀ name : GoString, (∃ p q, StreamName Quote p q = (name, none)) ↔
      name ∈ [str "synthetic:jobs:api:high", str "synthetic:jobs:api:normal",
        str "synthetic:jobs:browser:high", str "synthetic:jobs:browser:normal"]) ∧
    (∀ p q : GoString,
      ¬ ((p = str "api" ∨ p = str "browser") ∧ (q = str "high" ∨ q = str "normal")) →
      ∃ e, StreamName Quote p q = ([], some e)) := by
  have bad : ∀ p q : GoString,
      ¬ ((p = str "api" ∨ p = str "browser") ∧ (q = str "high" ∨ q = str "normal")) →
      ∃ e, StreamName Quote p q = ([], some e) := by
    intro p q h
    by_cases hp : p = str "api" ∨ p = str "browser"
    · have hq : ¬ (q = str "high" ∨ q = str "normal") := fun hq => h ⟨hp, hq⟩
      exact ⟨_, streamName_bad_priority Quote p q hp hq⟩
    · exact ⟨_, streamName_bad_pool Quote p q hp⟩
  have iff : ∀ p q : GoString, (StreamName Quote p q).2 = none ↔
      ((p = str "api" ∨ p = str "browser") ∧ (q = str "high" ∨ q = str "normal")) := by
    intro p q
    constructor
    · intro h
      by_contra hn
      obtain ⟨e, he⟩ := bad p q hn
      rw [he] at h
      exact Option.noConfusion h
    · rintro ⟨hp, hq⟩
      rw [streamName_ok Quote p q hp hq]
  refine ⟨iff, streamName_ok Quote, ?_, bad⟩
  intro name
  constructor
  · rintro ⟨p, q, h⟩
    have hv := (iff p q).1 (by rw [h])
    rw [streamName_ok Quote p q hv.1 hv.2] at h
    have hn : name = str "synthetic:jobs:" ++ p ++ str ":" ++ q := (congrArg Prod.fst h).symm
    rcases hv with ⟨hp | hp, hq | hq⟩ <;> subst hp <;> subst hq <;> subst hn <;> decide
  · intro h
    simp only [List.mem_cons, List.mem_singleton, List.not_mem_nil, or_false] at h
    rcases h with h | h | h | h
    · exact ⟨str "api", str "high", by rw [streamName_ok Quote _ _ (Or.inl rfl) (Or.inl rfl), h]; rfl⟩
    · exact ⟨str "api", str "normal", by rw [streamName_ok Quote _ _ (Or.inl rfl) (Or.inr rfl), h]; rfl⟩
    · exact ⟨str "browser", str "high", by rw [streamName_ok Quote _ _ (Or.inr rfl) (Or.inl rfl), h]; rfl⟩
    · exact ⟨str "browser", str "normal", by rw [streamName_ok Quote _ _ (Or.inr rfl) (Or.inr rfl), h]; rfl⟩

/-- Two messages whose first nine bytes differ are different errors. -/
theorem errorf_ne_of_take {a b : GoString} (h : a.take 9 ≠ b.take 9) :
    fmt.Errorf a ≠ fmt.Errorf b := by
  intro he
  apply h
  have : a = b := congrArg GoError.msg he
  rw [this]

/-- C10. For a pool outside `api`, `browser`, `StreamName` returns the empty name
and the error `invalid worker pool: ` followed by the quoted pool, whatever the
priority; for a valid pool and a priority outside `high`, `normal`, it returns
the empty name and the error `invalid priority: ` followed by the quoted priority;
and no error of the first kind equals an error of the second kind. -/
theorem streamName_failure_kinds (Quote : GoString → GoString) :
    (∀ p q : GoString, ¬ (p = str "api" ∨ p = str "browser") →
      StreamName Quote p q = (str "", some (fmt.Errorf (str "invalid worker pool: " ++ Quote p)))) ∧
    (∀ p q : GoString, (p = str "api" ∨ p = str "browser") →
      ¬ (q = str "high" ∨ q = str "normal") →
      StreamName Quote p q = (str "", some (fmt.Errorf (str "invalid priority: " ++ Quote q)))) ∧
    (∀ p q : GoString, fmt.Errorf (str "invalid worker pool: " ++ Quote p) ≠
      fmt.Errorf (str "invalid priority: " ++ Quote q)) := by
  refine ⟨streamName_bad_pool Quote, streamName_bad_priority Quote, ?_⟩
  intro p q
  apply errorf_ne_of_take
  have h1 : (str "invalid worker pool: " ++ Quote p).take 9 = str "invalid w" := rfl
  have h2 : (str "invalid priority: " ++ Quote q).take 9 = str "invalid p" := rfl
  rw [h1, h2]
  decide

/-- C10 at the inputs of `TestStreamName_InvalidInputs`: the pool `nope` with
priority `high`, and the pool `api` with priority `nope`. -/
theorem streamName_failure_kinds_witness :
    StreamName quotePlain (str "nope") PriorityHigh =
      (str "", some (fmt.Errorf (str "invalid worker pool: \"nope\""))) ∧
    StreamName quotePlain WorkerPoolAPI (str "nope") =
      (str "", some (fmt.Errorf (str "invalid priority: \"nope\""))) :=
  ⟨(streamName_failure_kinds quotePlain).1 (str "nope") PriorityHigh (by decide),
   (streamName_failure_kinds quotePlain).2.1 WorkerPoolAPI (str "nope") (by decide) (by decide)⟩

/-! ### The order of the checks -/

/-- The error of a job whose schema version is not supported. -/
theorem validateBasic_unsupported (j : ExecutionJobV1) (h : j.JobSchemaVersion ≠ 1) :
    j.ValidateBasic = some (fmt.Errorf
      (str "unsupported job_schema_version: " ++ fmt.formatInt j.JobSchemaVersion)) := by
  simp only [ExecutionJobV1.ValidateBasic, JobSchemaVersionV1]
  rw [if_pos h]

/-- The result of `ValidateBasic` on a job of schema version 1: no error, or one
of the six errors for a missing field. -/
theorem validateBasic_v1_cases (j : ExecutionJobV1) (h : j.JobSchemaVersion = 1) :
    j.ValidateBasic = none ∨
    j.ValidateBasic ∈ [some (fmt.Errorf (str "job_id is required")),
      some (fmt.Errorf (str "execution_id is required")),
      some (fmt.Errorf (str "tenant_id is required")),
      some (fmt.Errorf (str "idempotency_key is required")),
      some (fmt.Errorf (str "script_ref.script_id is required")),
      some (fmt.Errorf (str "created_at is required"))] := by
  simp only [ExecutionJobV1.ValidateBasic, JobSchemaVersionV1]
  rw [if_neg (not_not.mpr h)]
  split_ifs <;> simp

/-- C9. A job whose schema version is not 1 gets the error
`unsupported job_schema_version: ` followed by the version in decimal, whatever
its other fields hold, and no job of schema version 1 gets that result. -/
theorem validateBasic_version_first (j : ExecutionJobV1) (h : j.JobSchemaVersion ≠ 1) :
    j.ValidateBasic = some (fmt.Errorf
      (str "unsupported job_schema_version: " ++ fmt.formatInt j.JobSchemaVersion)) ∧
    ∀ k : ExecutionJobV1, k.JobSchemaVersion = 1 → k.ValidateBasic ≠ j.ValidateBasic := by
  refine ⟨validateBasic_unsupported j h, ?_⟩
  intro k hk heq
  rw [validateBasic_unsupported j h] at heq
  have hu : (str "unsupported job_schema_version: " ++ fmt.formatInt j.JobSchemaVersion).take 9
      = str "unsupport" := rfl
  rcases validateBasic_v1_cases k hk with hn | hm
  · rw [hn] at heq
    exact Option.noConfusion heq
  · rw [heq] at hm
    simp only [List.mem_cons, List.mem_singleton, List.not_mem_nil, or_false,
      Option.some.injEq] at hm
    rcases hm with hm | hm | hm | hm | hm | hm <;>
    · refine errorf_ne_of_take ?_ hm
      rw [hu]
      decide

/-- C9 at two jobs: the job with every field at its zero value (version 0, all
required fields missing), and the job of the test with version 999. -/
theorem validateBasic_version_first_witness :
    zeroJob.ValidateBasic = some (fmt.Errorf (str "unsupported job_schema_version: 0")) ∧
    ({ testJob with JobSchemaVersion := 999 }).ValidateBasic =
      some (fmt.Errorf (str "unsupported job_schema_version: 999")) ∧
    (∀ k : ExecutionJobV1, k.JobSchemaVersion = 1 → k.ValidateBasic ≠ zeroJob.ValidateBasic) :=
  ⟨(validateBasic_version_first zeroJob (by decide)).1,
   (validateBasic_version_first { testJob with JobSchemaVersion := 999 } (by decide)).1,
   (validateBasic_version_first zeroJob (by decide)).2⟩

/-! ### The idempotency key and the execution id -/

theorem hex_length (bs : List Byte) : (hex.EncodeToString bs).length = 2 * bs.length := by
  induction bs with
  | nil => rfl
  | cons b bs ih =>
    simp only [hex.EncodeToString, List.flatMap_cons, List.length_append, List.length_cons,
      List.length_nil] at ih ⊢
    omega

theorem uuid_string_length (u : uuid.UUID) : u.String.length = 36 := by
  have h := u.size
  simp only [uuid.UUID.String, List.length_append, List.length_cons, hex_length,
    List.length_take, List.length_drop]
  omega

/-- The bytes that `ComputeIdempotencyKey` has written to the hash. -/
theorem hash_written (tenant : GoString) (scriptRef : ScriptRef) (t : time.Time)
    (trigger : GoString) :
    (ComputeIdempotencyKey.hash tenant scriptRef t trigger).written =
      tenant ++ [0] ++ scriptRef.ScriptID.String ++ [0] ++ fmt.formatInt scriptRef.Version ++
        [0] ++ t.UTC.Format .RFC3339Nano ++ [0] ++ trigger := by
  simp [ComputeIdempotencyKey.hash, sha256.Hash.Write, sha256.New]

/-- The key as the encoding of the digest of the five fields and their separators. -/
theorem key_digest (tenant : GoString) (scriptRef : ScriptRef) (t : time.Time)
    (trigger : GoString) :
    ComputeIdempotencyKey tenant scriptRef t trigger =
      hex.EncodeToString (sha256.Sum256
        (tenant ++ [0] ++ scriptRef.ScriptID.String ++ [0] ++ fmt.formatInt scriptRef.Version ++
          [0] ++ t.UTC.Format .RFC3339Nano ++ [0] ++ trigger)) := by
  rw [ComputeIdempotencyKey, sha256.Hash.Sum, hash_written, List.nil_append]

/-- C3. The key is the lowercase hexadecimal encoding of the SHA-256 digest of the
tenant id, a NUL byte, the 36-byte canonical form of the script id, a NUL byte, the
version in decimal, a NUL byte, the instant formatted in UTC with layout
RFC3339Nano, a NUL byte and the trigger type, in this order; these are exactly the
bytes written to the hash. -/
theorem computeIdempotencyKey_digest (tenant : GoString) (scriptRef : ScriptRef)
    (t : time.Time) (trigger : GoString) :
    ComputeIdempotencyKey tenant scriptRef t trigger =
      hex.EncodeToString (sha256.Sum256
        (tenant ++ [0] ++ scriptRef.ScriptID.String ++ [0] ++ fmt.formatInt scriptRef.Version ++
          [0] ++ t.UTC.Format .RFC3339Nano ++ [0] ++ trigger)) ∧
    (ComputeIdempotencyKey.hash tenant scriptRef t trigger).written =
      tenant ++ [0] ++ scriptRef.ScriptID.String ++ [0] ++ fmt.formatInt scriptRef.Version ++
        [0] ++ t.UTC.Format .RFC3339Nano ++ [0] ++ trigger ∧
    scriptRef.ScriptID.String.length = 36 := by
  exact ⟨key_digest tenant scriptRef t trigger, hash_written tenant scriptRef t trigger,
    uuid_string_length _⟩

set_option maxRecDepth 100000 in
/-- The bytes written for the inputs of the test, and the key, which is the one
that SHA-256 gives for these bytes. -/
theorem computeIdempotencyKey_test_vector :
    (ComputeIdempotencyKey.hash (str "tenant-a") testScriptRef testScheduledFor
        (str "scheduled")).written =
      str "tenant-a" ++ [0] ++ str "11111111-1111-1111-1111-111111111111" ++ [0] ++ str "7" ++
        [0] ++ str "2026-02-06T15:34:56.789Z" ++ [0] ++ str "scheduled" ∧
    ComputeIdempotencyKey (str "tenant-a") testScriptRef testScheduledFor (str "scheduled") =
      str "01d6c35b57aeafe6dd4786469bcce8ca40a16f9c35754c4066eca26fbc7045e6" := by
  constructor <;> decide

/-- Two times with the same instant are the same time once moved to UTC. -/
theorem utc_eq_of_instant {t1 t2 : time.Time} (hsec : t1.sec = t2.sec)
    (hnsec : t1.nsec = t2.nsec) : t1.UTC = t2.UTC := by
  cases t1
  cases t2
  simp only at hsec hnsec
  subst hsec hnsec
  rfl

/-- C4. Two times with the same instant give the same key, whatever their
locations. -/
theorem computeIdempotencyKey_same_instant (tenant : GoString) (scriptRef : ScriptRef)
    (trigger : GoString) (t1 t2 : time.Time) (hsec : t1.sec = t2.sec) (hnsec : t1.nsec = t2.nsec) :
    ComputeIdempotencyKey tenant scriptRef t1 trigger =
      ComputeIdempotencyKey tenant scriptRef t2 trigger := by
  rw [key_digest tenant scriptRef t1 trigger, key_digest tenant scriptRef t2 trigger,
    utc_eq_of_instant hsec hnsec]

/-- C4 at the time of the test, 12:34:56.789-03:00, and the same instant in UTC,
15:34:56.789Z: the offsets and the two renderings differ, the keys are equal. -/
theorem computeIdempotencyKey_same_instant_witness :
    testScheduledFor.loc.offset = -10800 ∧
    testScheduledForUTC.loc.offset = 0 ∧
    testScheduledFor.Format .RFC3339Nano = str "2026-02-06T12:34:56.789-03:00" ∧
    testScheduledForUTC.Format .RFC3339Nano = str "2026-02-06T15:34:56.789Z" ∧
    ComputeIdempotencyKey (str "tenant-a") testScriptRef testScheduledFor (str "scheduled") =
      ComputeIdempotencyKey (str "tenant-a") testScriptRef testScheduledForUTC
        (str "scheduled") :=
  ⟨by decide, by decide, by decide, by decide,
   computeIdempotencyKey_same_instant (str "tenant-a") testScriptRef (str "scheduled")
     testScheduledFor testScheduledForUTC (by decide) (by decide)⟩

/-- C7. Two script references that differ at most in the content hash `Sha256`
give, with the other arguments equal, the same key and hence the same execution
id. -/
theorem identity_ignores_content_hash (tenant : GoString) (r1 r2 : ScriptRef) (t : time.Time)
    (trigger : GoString) (hid : r1.ScriptID = r2.ScriptID) (hver : r1.Version = r2.Version) :
    ComputeIdempotencyKey tenant r1 t trigger = ComputeIdempotencyKey tenant r2 t trigger ∧
    DeterministicExecutionID (ComputeIdempotencyKey tenant r1 t trigger) =
      DeterministicExecutionID (ComputeIdempotencyKey tenant r2 t trigger) := by
  have h : ComputeIdempotencyKey tenant r1 t trigger = ComputeIdempotencyKey tenant r2 t trigger := by
    rw [key_digest tenant r1 t trigger, key_digest tenant r2 t trigger, hid, hver]
  exact ⟨h, by rw [h]⟩

/-- C7 at the script reference of the test, with content hash `abc`, and the same
reference with an empty content hash. -/
theorem identity_ignores_content_hash_witness :
    testScriptRef ≠ { testScriptRef with Sha256 := str "" } ∧
    (ComputeIdempotencyKey (str "tenant-a") testScriptRef testScheduledFor (str "scheduled") =
      ComputeIdempotencyKey (str "tenant-a") { testScriptRef with Sha256 := str "" }
        testScheduledFor (str "scheduled") ∧
    DeterministicExecutionID
        (ComputeIdempotencyKey (str "tenant-a") testScriptRef testScheduledFor (str "scheduled")) =
      DeterministicExecutionID
        (ComputeIdempotencyKey (str "tenant-a") { testScriptRef with Sha256 := str "" }
          testScheduledFor (str "scheduled"))) :=
  ⟨by decide,
   identity_ignores_content_hash (str "tenant-a") testScriptRef
     { testScriptRef with Sha256 := str "" } testScheduledFor (str "scheduled") rfl rfl⟩

set_option maxRecDepth 100000 in
theorem version_nibble : ∀ b : Byte,
    (Fin.ofNat ((b.val &&& 0x0f) ||| ((5 &&& 0xf) <<< 4)) : Byte).val >>> 4 = 5 := by
  decide

/-- Byte 6 of a UUID made by `NewHash` holds the version in its high nibble. -/
theorem newHash_version5 (sum : List Byte → List Byte) (space : uuid.UUID) (data : List Byte) :
    (uuid.NewHash sum space data 5).Version = 5 := by
  have hlen : ((sum (space.bytes ++ data)).take 16 ++
      List.replicate (16 - (sum (space.bytes ++ data)).length) 0).length = 16 := by
    simp only [List.length_append, List.length_take, List.length_replicate]
    omega
  simp only [uuid.UUID.Version, uuid.NewHash, List.getD_eq_getElem?_getD]
  rw [List.getElem?_set_ne (by decide), List.getElem?_set_self (by rw [hlen]; decide)]
  exact version_nibble _

/-- C8. `DeterministicExecutionID` is the name-based UUID built from SHA-1 over the
namespace `NameSpaceOID` followed by the key, with version 5; the high nibble of
its byte 6 is 5, so it is never the nil UUID, for any key. -/
theorem deterministicExecutionID_not_nil (k : GoString) :
    DeterministicExecutionID k = uuid.NewHash sha1.Sum uuid.NameSpaceOID k 5 ∧
    (DeterministicExecutionID k).Version = 5 ∧
    DeterministicExecutionID k ≠ uuid.Nil := by
  have hv : (DeterministicExecutionID k).Version = 5 := newHash_version5 _ _ _
  refine ⟨rfl, hv, ?_⟩
  intro h
  rw [h] at hv
  revert hv
  decide

set_option maxRecDepth 100000 in
/-- The execution id of the key of `TestDeterministicExecutionID_Stable` and of the
empty key: the version-5 UUIDs of RFC 4122 for these names in the OID namespace. -/
theorem deterministicExecutionID_test_vector :
    (DeterministicExecutionID (str "deadbeef")).String =
      str "fd2ade40-959f-516f-b0fd-4aeaa03bb2e4" ∧
    (DeterministicExecutionID (str "")).String = str "0a68eb57-c88a-5f34-9e9d-27f85e68af4f" := by
  constructor <;> decide

/-! ### Splitting a string at a separator -/

/-- Two strings whose first parts satisfy `p` throughout and are each followed by a
byte that does not satisfy `p` agree only when the parts agree. -/
theorem append_sep_inj {α : Type} (p : α → Prop) :
    ∀ {a b : List α} {x y : α} {r s : List α}, (∀ z ∈ a, p z) → (∀ z ∈ b, p z) → ¬ p x → ¬ p y →
      a ++ x :: r = b ++ y :: s → a = b ∧ x = y ∧ r = s
  | [], [], _, _, _, _, _, _, _, _, h => by
    simp only [List.nil_append, List.cons.injEq] at h
    exact ⟨rfl, h.1, h.2⟩
  | [], c :: b, x, _, _, _, _, hb, hx, _, h => by
    simp only [List.nil_append, List.cons_append, List.cons.injEq] at h
    exact absurd (h.1 ▸ hb c (List.mem_cons_self _ _)) hx
  | c :: a, [], _, y, _, _, ha, _, _, hy, h => by
    simp only [List.nil_append, List.cons_append, List.cons.injEq] at h
    exact absurd (h.1 ▸ ha c (List.mem_cons_self _ _)) hy
  | c :: a, d :: b, x, y, r, s, ha, hb, hx, hy, h => by
    simp only [List.cons_append, List.cons.injEq] at h
    obtain ⟨h1, h2, h3⟩ := append_sep_inj p (fun z hz => ha z (List.mem_cons_of_mem _ hz))
      (fun z hz => hb z (List.mem_cons_of_mem _ hz)) hx hy h.2
    exact ⟨by rw [h.1, h1], h2, h3⟩

/-! ### Decimal digits -/

/-- The byte of a digit below ten. -/
theorem digit_val (d : Nat) (h : d < 10) : (fmt.digit d).val = 48 + d := by
  simp only [fmt.digit, Fin.ofNat, Fin.val_mk]
  omega

theorem digits_lt : ∀ (fuel n : Nat), ∀ d ∈ fmt.digits fuel n, d < 10
  | 0, _, d, h => by simp [fmt.digits] at h
  | fuel + 1, n, d, h => by
    rw [fmt.digits] at h
    split_ifs at h with hn
    · simp only [List.mem_singleton] at h
      omega
    · simp only [List.mem_append, List.mem_singleton] at h
      rcases h with h | h
      · exact digits_lt fuel _ d h
      · omega

theorem digits_ne_nil : ∀ (fuel n : Nat), n < fuel → fmt.digits fuel n ≠ []
  | 0, _, h => by omega
  | fuel + 1, n, _ => by
    rw [fmt.digits]
    split_ifs <;> simp

/-- The digits of a number write that number. -/
theorem digits_value : ∀ (fuel n : Nat), n < fuel →
    (fmt.digits fuel n).foldl (fun a d => 10 * a + d) 0 = n
  | 0, _, h => by omega
  | fuel + 1, n, h => by
    rw [fmt.digits]
    split_ifs with hn
    · simp
    · rw [List.foldl_append, digits_value fuel (n / 10) (by omega)]
      simp only [List.foldl_cons, List.foldl_nil]
      omega

theorem digits_length : ∀ (fuel n k : Nat), n < 10 ^ (k + 1) → (fmt.digits fuel n).length ≤ k + 1
  | 0, _, _, _ => by simp [fmt.digits]
  | fuel + 1, n, k, h => by
    rw [fmt.digits]
    split_ifs with hn
    · simp
    · cases k with
      | zero => omega
      | succ k =>
        have := digits_length fuel (n / 10) k (by rw [pow_succ] at h; omega)
        simp only [List.length_append, List.length_singleton]
        omega

theorem decimal_isDigit (n : Nat) : ∀ b ∈ fmt.decimal n, isDigit b := by
  intro b hb
  simp only [fmt.decimal, List.mem_map] at hb
  obtain ⟨d, hd, rfl⟩ := hb
  have := digits_lt _ _ d hd
  simp only [isDigit, digit_val d this]
  omega

theorem decimal_ne_nil (n : Nat) : fmt.decimal n ≠ [] := by
  simp only [fmt.decimal, ne_eq, List.map_eq_nil_iff]
  exact digits_ne_nil _ _ (Nat.lt_succ_self n)

theorem foldl_map_digit : ∀ (ds : List Nat) (acc : Nat), (∀ d ∈ ds, d < 10) →
    (ds.map fmt.digit).foldl (fun a b => 10 * a + (b.val - 48)) acc =
      ds.foldl (fun a d => 10 * a + d) acc
  | [], _, _ => rfl
  | d :: ds, acc, h => by
    simp only [List.map_cons, List.foldl_cons]
    rw [digit_val d (h d (List.mem_cons_self _ _)), Nat.add_sub_cancel_left]
    exact foldl_map_digit ds _ (fun e he => h e (List.mem_cons_of_mem _ he))

theorem decimal_value (n : Nat) : digitsValue (fmt.decimal n) = n := by
  rw [digitsValue, fmt.decimal, foldl_map_digit _ _ (digits_lt _ _)]
  exact digits_value _ _ (Nat.lt_succ_self n)

theorem decimal_length (n k : Nat) (h : n < 10 ^ (k + 1)) : (fmt.decimal n).length ≤ k + 1 := by
  rw [fmt.decimal, List.length_map]
  exact digits_length _ _ _ h

theorem chr_zero_val : (chr '0').val = 48 := by decide

theorem digitsValue_zeros (k : Nat) (l : GoString) :
    digitsValue (List.replicate k (chr '0') ++ l) = digitsValue l := by
  simp only [digitsValue, List.foldl_append]
  congr 1
  induction k with
  | zero => rfl
  | succ k ih => rw [List.replicate_succ, List.foldl_cons, chr_zero_val]; exact ih

/-- The rendering of a natural number by `appendInt`. -/
theorem appendInt_nat (n w : Nat) : time.appendInt (n : Int) w =
    List.replicate (w - (fmt.decimal n).length) (chr '0') ++ fmt.decimal n := by
  simp only [time.appendInt, Int.natAbs_ofNat]
  rw [if_neg (by omega)]

theorem appendInt_nat_isDigit (n w : Nat) : ∀ b ∈ time.appendInt (n : Int) w, isDigit b := by
  intro b hb
  rw [appendInt_nat, List.mem_append] at hb
  rcases hb with hb | hb
  · rw [List.eq_of_mem_replicate hb]
    exact ⟨by decide, by decide⟩
  · exact decimal_isDigit n b hb

theorem appendInt_nat_value (n w : Nat) : digitsValue (time.appendInt (n : Int) w) = n := by
  rw [appendInt_nat, digitsValue_zeros, decimal_value]

theorem appendInt_nat_ne_nil (n w : Nat) : time.appendInt (n : Int) w ≠ [] := by
  rw [appendInt_nat]
  simp [decimal_ne_nil]

theorem appendInt_nat_inj {n m w : Nat}
    (h : time.appendInt (n : Int) w = time.appendInt (m : Int) w) : n = m := by
  rw [← appendInt_nat_value n w, h, appendInt_nat_value]

theorem appendInt_nat_length (n k : Nat) (h : n < 10 ^ (k + 1)) :
    (time.appendInt (n : Int) (k + 1)).length = k + 1 := by
  have := decimal_length n k h
  rw [appendInt_nat, List.length_append, List.length_replicate]
  omega

theorem isDigit_ne_minus {b : Byte} (h : isDigit b) : b ≠ chr '-' := by
  rintro rfl
  revert h
  simp only [isDigit]
  decide

theorem decimal_inj {n m : Nat} (h : fmt.decimal n = fmt.decimal m) : n = m := by
  rw [← decimal_value n, h, decimal_value]

/-- The head of a non-empty string of digits is not the minus sign. -/
theorem minus_cons_ne {l r : GoString} (hl : ∀ b ∈ l, isDigit b) (hne : l ≠ []) :
    chr '-' :: r ≠ l := by
  intro h
  cases l with
  | nil => exact hne rfl
  | cons c l =>
    simp only [List.cons.injEq] at h
    exact isDigit_ne_minus (hl c (List.mem_cons_self _ _)) h.1.symm

/-- The rendering of `%d` determines the number. -/
theorem formatInt_inj {x y : Int} (h : fmt.formatInt x = fmt.formatInt y) : x = y := by
  simp only [fmt.formatInt] at h
  split_ifs at h with hx hy hy
  · simp only [List.cons.injEq, true_and] at h
    have := decimal_inj h
    omega
  · exact absurd h (minus_cons_ne (decimal_isDigit _) (decimal_ne_nil _))
  · exact absurd h.symm (minus_cons_ne (decimal_isDigit _) (decimal_ne_nil _))
  · have := decimal_inj h
    omega

/-- The rendering of an integer by `appendInt`, by sign. -/
theorem appendInt_sign (x : Int) (w : Nat) : time.appendInt x w =
    if x < 0 then chr '-' :: time.appendInt (x.natAbs : Int) w
    else time.appendInt (x.natAbs : Int) w := by
  simp only [time.appendInt, Int.natAbs_ofNat]
  rw [if_neg (show ¬ ((x.natAbs : Int) < 0) by omega)]

theorem not_isDigit_minus : ¬ isDigit (chr '-') := by
  simp only [isDigit]
  decide

/-- A field written by `appendInt` for a natural number and followed by a byte
that is no digit determines the number and what follows. -/
theorem field_inj {n m w : Nat} {x y : Byte} {r s : GoString} (hx : ¬ isDigit x)
    (hy : ¬ isDigit y)
    (h : time.appendInt (n : Int) w ++ x :: r = time.appendInt (m : Int) w ++ y :: s) :
    n = m ∧ x :: r = y :: s := by
  obtain ⟨h1, h2, h3⟩ := append_sep_inj isDigit (appendInt_nat_isDigit n w)
    (appendInt_nat_isDigit m w) hx hy h
  exact ⟨appendInt_nat_inj h1, by rw [h2, h3]⟩

/-- The year field, written by `appendInt` for an integer and followed by a hyphen,
determines the year and what follows. -/
theorem year_field_inj {x y : Int} {w : Nat} {r s : GoString}
    (h : time.appendInt x w ++ chr '-' :: r = time.appendInt y w ++ chr '-' :: s) :
    x = y ∧ r = s := by
  rw [appendInt_sign x, appendInt_sign y] at h
  split_ifs at h with hx hy hy
  · simp only [List.cons_append, List.cons.injEq, true_and] at h
    obtain ⟨h1, h2⟩ := field_inj not_isDigit_minus not_isDigit_minus h
    simp only [List.cons.injEq, true_and] at h2
    exact ⟨by omega, h2⟩
  · exfalso
    have hne := appendInt_nat_ne_nil y.natAbs w
    have hd := appendInt_nat_isDigit y.natAbs w
    cases hl : time.appendInt (y.natAbs : Int) w with
    | nil => exact hne hl
    | cons c l =>
      rw [hl] at h hd
      simp only [List.cons_append, List.cons.injEq] at h
      exact isDigit_ne_minus (hd c (List.mem_cons_self _ _)) h.1.symm
  · exfalso
    have hne := appendInt_nat_ne_nil x.natAbs w
    have hd := appendInt_nat_isDigit x.natAbs w
    cases hl : time.appendInt (x.natAbs : Int) w with
    | nil => exact hne hl
    | cons c l =>
      rw [hl] at h hd
      simp only [List.cons_append, List.cons.injEq] at h
      exact isDigit_ne_minus (hd c (List.mem_cons_self _ _)) h.1
  · obtain ⟨h1, h2⟩ := field_inj not_isDigit_minus not_isDigit_minus h
    simp only [List.cons.injEq, true_and] at h2
    exact ⟨by omega, h2⟩

/-! ### The fraction of a second -/

/-- A string is what `trimZeros` leaves of it followed by zeros. -/
theorem trimZeros_append (l : GoString) :
    ∃ k, l = time.trimZeros l ++ List.replicate k (chr '0') := by
  refine ⟨(l.reverse.takeWhile (· == chr '0')).length, ?_⟩
  have h := List.takeWhile_append_dropWhile (· == chr '0') l.reverse
  have hr : l.reverse.takeWhile (· == chr '0') =
      List.replicate (l.reverse.takeWhile (· == chr '0')).length (chr '0') := by
    rw [List.eq_replicate_iff]
    refine ⟨rfl, fun b hb => ?_⟩
    simpa using List.mem_takeWhile_imp hb
  have h2 : l = (l.reverse.dropWhile (· == chr '0')).reverse ++
      (l.reverse.takeWhile (· == chr '0')).reverse := by
    rw [← List.reverse_append, h, List.reverse_reverse]
  rw [hr, List.reverse_replicate] at h2
  exact h2

theorem trimZeros_inj {a b : GoString} (hlen : a.length = b.length)
    (h : time.trimZeros a = time.trimZeros b) : a = b := by
  obtain ⟨k1, h1⟩ := trimZeros_append a
  obtain ⟨k2, h2⟩ := trimZeros_append b
  have hl1 := congrArg List.length h1
  have hl2 := congrArg List.length h2
  rw [List.length_append, List.length_replicate] at hl1 hl2
  have hk : k1 = k2 := by rw [h] at hl1; omega
  rw [h1, h2, h, hk]

/-- The fraction written by `appendNano` determines the nanoseconds. -/
theorem appendNano_inj {n m : Nat} (hn : n < 1000000000) (hm : m < 1000000000)
    (h : time.appendNano n = time.appendNano m) : n = m := by
  simp only [time.appendNano] at h
  by_cases h0 : n = 0 <;> by_cases h1 : m = 0
  · omega
  · rw [if_pos h0, if_neg h1] at h
    exact absurd h (by simp)
  · rw [if_neg h0, if_pos h1] at h
    exact absurd h (by simp)
  · rw [if_neg h0, if_neg h1] at h
    simp only [List.cons.injEq, true_and] at h
    have l1 := appendInt_nat_length n 8 (by norm_num; omega)
    have l2 := appendInt_nat_length m 8 (by norm_num; omega)
    exact appendInt_nat_inj (trimZeros_inj (by rw [l1, l2]) h)

/-- What follows the seconds in UTC starts with a byte that is no digit. -/
theorem nano_zone_head (n : Nat) :
    ∃ x r, time.appendNano n ++ [chr 'Z'] = x :: r ∧ ¬ isDigit x := by
  simp only [time.appendNano]
  split_ifs
  · exact ⟨chr 'Z', [], rfl, by simp only [isDigit]; decide⟩
  · exact ⟨chr '.', _, rfl, by simp only [isDigit]; decide⟩

/-! ### Hexadecimal encoding -/

theorem hexdigit_inj : ∀ a b : Fin 16, hex.hexdigit a.val = hex.hexdigit b.val → a = b := by
  decide

theorem hex_pair_inj {a b : Byte}
    (h1 : hex.hexdigit (a.val / 16) = hex.hexdigit (b.val / 16))
    (h2 : hex.hexdigit (a.val % 16) = hex.hexdigit (b.val % 16)) : a = b := by
  have ha := a.isLt
  have hb := b.isLt
  have e1 := hexdigit_inj ⟨a.val / 16, by omega⟩ ⟨b.val / 16, by omega⟩ h1
  have e2 := hexdigit_inj ⟨a.val % 16, by omega⟩ ⟨b.val % 16, by omega⟩ h2
  simp only [Fin.mk.injEq] at e1 e2
  exact Fin.ext (by omega)

/-- The function `hex.EncodeToString` is injective. -/
theorem hex_inj : ∀ {a b : List Byte}, hex.EncodeToString a = hex.EncodeToString b → a = b
  | [], [], _ => rfl
  | [], _ :: _, h => by simp [hex.EncodeToString] at h
  | _ :: _, [], h => by simp [hex.EncodeToString] at h
  | x :: a, y :: b, h => by
    simp only [hex.EncodeToString, List.flatMap_cons, List.cons_append, List.nil_append,
      List.cons.injEq] at h
    rw [hex_pair_inj h.1 h.2.1, hex_inj (a := a) (b := b) h.2.2]

/-- The canonical form of a UUID determines the UUID. -/
theorem uuid_string_inj {u v : uuid.UUID} (h : u.String = v.String) : u = v := by
  have hu := u.size
  have hv := v.size
  simp only [uuid.UUID.String, List.append_assoc, List.cons_append] at h
  obtain ⟨h1, h⟩ := List.append_inj h (by simp only [hex_length, List.length_take]; omega)
  simp only [List.cons.injEq, true_and] at h
  obtain ⟨h2, h⟩ := List.append_inj h
    (by simp only [hex_length, List.length_take, List.length_drop]; omega)
  simp only [List.cons.injEq, true_and] at h
  obtain ⟨h3, h⟩ := List.append_inj h
    (by simp only [hex_length, List.length_take, List.length_drop]; omega)
  simp only [List.cons.injEq, true_and] at h
  obtain ⟨h4, h⟩ := List.append_inj h
    (by simp only [hex_length, List.length_take, List.length_drop]; omega)
  simp only [List.cons.injEq, true_and] at h
  have e1 := hex_inj h1
  have e2 := hex_inj h2
  have e3 := hex_inj h3
  have e4 := hex_inj h4
  have e5 := hex_inj h
  have split : ∀ l : List Byte, l = l.take 4 ++ ((l.drop 4).take 2 ++ ((l.drop 6).take 2 ++
      ((l.drop 8).take 2 ++ l.drop 10))) := by
    intro l
    have d1 : l.drop 6 = (l.drop 4).drop 2 := by rw [List.drop_drop]
    have d2 : l.drop 8 = (l.drop 6).drop 2 := by rw [List.drop_drop]
    have d3 : l.drop 10 = (l.drop 8).drop 2 := by rw [List.drop_drop]
    rw [d3, List.take_append_drop, d2, List.take_append_drop, d1, List.take_append_drop,
      List.take_append_drop]
  have hb : u.bytes = v.bytes := by
    rw [split u.bytes, split v.bytes, e1, e2, e3, e4, e5]
  cases u
  cases v
  simp only [uuid.UUID.mk.injEq]
  exact hb

/-- No hexadecimal digit is the NUL byte. -/
theorem hexdigit_ne_zero : ∀ n : Fin 16, hex.hexdigit n.val ≠ 0 := by
  decide

/-- The hexadecimal encoding holds no NUL byte. -/
theorem hex_ne_zero (bs : List Byte) : ∀ b ∈ hex.EncodeToString bs, b ≠ 0 := by
  intro b hb
  simp only [hex.EncodeToString, List.mem_flatMap, List.mem_cons, List.mem_singleton,
    List.not_mem_nil, or_false] at hb
  obtain ⟨x, _, rfl | rfl⟩ := hb
  · exact hexdigit_ne_zero ⟨x.val / 16, by have := x.isLt; omega⟩
  · exact hexdigit_ne_zero ⟨x.val % 16, by omega⟩

/-- The canonical form of a UUID holds no NUL byte. -/
theorem uuid_string_ne_zero (u : uuid.UUID) : ∀ b ∈ u.String, b ≠ 0 := by
  intro b hb
  simp only [uuid.UUID.String, List.mem_append, List.mem_cons] at hb
  rcases hb with (((h | rfl | h) | rfl | h) | rfl | h) | rfl | h
  · exact hex_ne_zero _ b h
  · decide
  · exact hex_ne_zero _ b h
  · decide
  · exact hex_ne_zero _ b h
  · decide
  · exact hex_ne_zero _ b h
  · decide
  · exact hex_ne_zero _ b h

/-! ### The calendar -/

theorem step100 (r : Nat) (h : r < 146097) :
    r / 36524 - r / 36524 / 4 ≤ 3 ∧ 36524 * (r / 36524 - r / 36524 / 4) ≤ r ∧
    r - 36524 * (r / 36524 - r / 36524 / 4) ≤ 36524 := by
  omega

theorem step4 (r : Nat) (h : r ≤ 36524) :
    r / 1461 ≤ 24 ∧ 1461 * (r / 1461) ≤ r ∧ r - 1461 * (r / 1461) ≤ 1460 := by
  omega

theorem step1 (r : Nat) (h : r ≤ 1460) :
    r / 365 - r / 365 / 4 ≤ 3 ∧ 365 * (r / 365 - r / 365 / 4) ≤ r ∧
    r - 365 * (r / 365 - r / 365 / 4) ≤ 365 := by
  omega

/-- The cycles that `absYear` cuts off: the numbers of 100-year, 4-year and 1-year
cycles within the 400-year cycle, with their bounds, the year and the day count. -/
theorem absYear_spec (d : Nat) : ∃ n100 n4 n1 : Nat, n100 ≤ 3 ∧ n4 ≤ 24 ∧ n1 ≤ 3 ∧
    (time.absYear d).2 ≤ 365 ∧
    (time.absYear d).1 =
      ((400 * (d / 146097) + 100 * n100 + 4 * n4 + n1 : Nat) : Int) + time.absoluteZeroYear ∧
    d = 146097 * (d / 146097) + (36524 * n100 + 1461 * n4 + 365 * n1 + (time.absYear d).2) := by
  have hr : d - 146097 * (d / 146097) < 146097 := by omega
  have hd : d = 146097 * (d / 146097) + (d - 146097 * (d / 146097)) := by omega
  simp only [time.absYear]
  generalize d - 146097 * (d / 146097) = r at hr hd ⊢
  generalize d / 146097 = q at hd ⊢
  obtain ⟨a1, a2, a3⟩ := step100 r hr
  obtain ⟨b1, b2, b3⟩ := step4 _ a3
  obtain ⟨c1, c2, c3⟩ := step1 _ b3
  refine ⟨r / 36524 - r / 36524 / 4, (r - 36524 * (r / 36524 - r / 36524 / 4)) / 1461,
    _, a1, b1, c1, c3, rfl, ?_⟩
  generalize r / 36524 - r / 36524 / 4 = n100 at *
  generalize (r - 36524 * n100) / 1461 = n4 at *
  generalize (r - 36524 * n100 - 1461 * n4) / 365 - (r - 36524 * n100 - 1461 * n4) / 365 / 4 = n1 at *
  omega

/-- The day count is recovered from the year and the day of the year. -/
theorem absYear_inj {d1 d2 : Nat} (h : time.absYear d1 = time.absYear d2) : d1 = d2 := by
  obtain ⟨a, b, c, ha, hb, hc, _, hy1, hd1⟩ := absYear_spec d1
  obtain ⟨a', b', c', ha', hb', hc', _, hy2, hd2⟩ := absYear_spec d2
  rw [h] at hy1 hd1
  generalize (time.absYear d2).2 = yd at *
  generalize (time.absYear d2).1 = y at *
  generalize d1 / 146097 = q1 at *
  generalize d2 / 146097 = q2 at *
  generalize time.absoluteZeroYear = z at *
  have hq : q1 = q2 := by
    have e1 : 100 * a + 4 * b + c < 400 := by omega
    have e2 : 100 * a' + 4 * b' + c' < 400 := by omega
    generalize 100 * a + 4 * b + c = C1 at *
    generalize 100 * a' + 4 * b' + c' = C2 at *
    omega
  have hC : 100 * a + 4 * b + c = 100 * a' + 4 * b' + c' := by omega
  have ha : a = a' := by
    have e1 : 4 * b + c < 100 := by omega
    have e2 : 4 * b' + c' < 100 := by omega
    generalize 4 * b + c = S1 at *
    generalize 4 * b' + c' = S2 at *
    omega
  have hb : b = b' := by omega
  have hc : c = c' := by omega
  rw [hd1, hd2, hq, ha, hb, hc]

set_option maxRecDepth 100000 in
/-- The day of the year is recovered from the month and the day of the month. -/
theorem monthDay_inverse : ∀ (leap : Bool) (yday : Fin 366),
    time.daysBefore.getD ((time.monthDay leap yday.val).1 - 1) 0 +
      (if leap && (time.monthDay leap yday.val).1 > 2 then 1 else 0) +
      ((time.monthDay leap yday.val).2 - 1) = yday.val := by
  decide

theorem monthDay_inj {leap : Bool} {a b : Nat} (ha : a < 366) (hb : b < 366)
    (h : time.monthDay leap a = time.monthDay leap b) : a = b := by
  have h1 := monthDay_inverse leap ⟨a, ha⟩
  have h2 := monthDay_inverse leap ⟨b, hb⟩
  simp only at h1 h2
  rw [← h1, ← h2, h]

theorem absYear_yday_le (d : Nat) : (time.absYear d).2 < 366 := by
  obtain ⟨_, _, _, _, _, _, h, _⟩ := absYear_spec d
  omega

/-! ### The layout RFC3339Nano in UTC -/

/-- The absolute seconds of a time in UTC: the seconds since year 1 moved to the
absolute zero year, in 64 bits without sign. -/
theorem abs_utc (t : time.Time) (h : t.loc = time.UTC) :
    t.abs = ((t.sec + 9223371966579724800) % 18446744073709551616).toNat := by
  simp only [time.Time.abs, h, time.UTC, add_zero, time.internalToAbsolute]

/-- The rendering of a UTC time, field by field. -/
theorem format_utc (t : time.Time) (h : t.loc = time.UTC) :
    t.Format .RFC3339Nano =
      time.appendInt (time.absYear (t.abs / 86400)).1 4 ++ (chr '-' ::
      (time.appendInt ((time.monthDay (time.isLeap (time.absYear (t.abs / 86400)).1)
          (time.absYear (t.abs / 86400)).2).1 : Nat) 2 ++ (chr '-' ::
      (time.appendInt ((time.monthDay (time.isLeap (time.absYear (t.abs / 86400)).1)
          (time.absYear (t.abs / 86400)).2).2 : Nat) 2 ++ (chr 'T' ::
      (time.appendInt ((t.abs % 86400 / 3600 : Nat) : Int) 2 ++ (chr ':' ::
      (time.appendInt ((t.abs % 86400 % 3600 / 60 : Nat) : Int) 2 ++ (chr ':' ::
      (time.appendInt ((t.abs % 86400 % 60 : Nat) : Int) 2 ++
      (time.appendNano t.nsec.val ++ [chr 'Z']))))))))))) := by
  simp only [time.Time.Format, h, time.UTC, time.appendZone, if_true, List.append_assoc,
    List.cons_append, Int.natCast_div, Int.natCast_mod, Nat.cast_ofNat]

theorem not_isDigit_T : ¬ isDigit (chr 'T') := by
  simp only [isDigit]
  decide

theorem not_isDigit_colon : ¬ isDigit (chr ':') := by
  simp only [isDigit]
  decide

set_option maxRecDepth 100000 in
/-- The rendering at the ends of the 64-bit seconds: the least Unix second, which
lies before the absolute zero year, wraps into a late year, and so does the
second before the absolute zero year; the first second of the absolute zero year
and the last 64-bit second are written as they are. -/
theorem format_utc_extremes :
    (time.Time.mk (-9223372036854775808 + 62135596800) 0 time.UTC (by decide)).Format
        .RFC3339Nano = str "292277026596-12-04T15:30:08Z" ∧
    (time.Time.mk (-9223371966579724800) 0 time.UTC (by decide)).Format .RFC3339Nano =
      str "-292277022399-01-01T00:00:00Z" ∧
    (time.Time.mk (-9223371966579724801) 0 time.UTC (by decide)).Format .RFC3339Nano =
      str "292277026854-11-09T07:00:15Z" ∧
    (time.Time.mk 9223372036854775807 0 time.UTC (by decide)).Format .RFC3339Nano =
      str "292277024627-12-06T15:30:07Z" := by
  decide

/-- The second of the day is recovered from the hour, the minute and the second. -/
theorem clock_inj {c1 c2 : Nat} (hh : c1 / 3600 = c2 / 3600)
    (hmin : c1 % 3600 / 60 = c2 % 3600 / 60) (hsec : c1 % 60 = c2 % 60) : c1 = c2 := by
  omega

/-- The move to absolute seconds, with its wrap at 64 bits, is one to one on the
64-bit seconds. -/
theorem abs_inj {s1 s2 : Int} (h1 : -9223372036854775808 ≤ s1 ∧ s1 < 9223372036854775808)
    (h2 : -9223372036854775808 ≤ s2 ∧ s2 < 9223372036854775808)
    (h : ((s1 + 9223371966579724800) % 18446744073709551616).toNat =
      ((s2 + 9223371966579724800) % 18446744073709551616).toNat) : s1 = s2 := by
  omega

/-- The rendering of a UTC time determines the instant, over the whole range of
64-bit seconds. -/
theorem format_utc_inj {t1 t2 : time.Time} (h1 : t1.loc = time.UTC) (h2 : t2.loc = time.UTC)
    (h : t1.Format .RFC3339Nano = t2.Format .RFC3339Nano) :
    t1.sec = t2.sec ∧ t1.nsec = t2.nsec := by
  rw [format_utc t1 h1, format_utc t2 h2] at h
  have ha1 := abs_utc t1 h1
  have ha2 := abs_utc t2 h2
  have hr1 := t1.sec_range
  have hr2 := t2.sec_range
  generalize t1.abs = A1 at h ha1
  generalize t2.abs = A2 at h ha2
  generalize t1.sec = s1 at ha1 hr1 ⊢
  generalize t2.sec = s2 at ha2 hr2 ⊢
  generalize t1.nsec = n1 at h ⊢
  generalize t2.nsec = n2 at h ⊢
  obtain ⟨hy, h⟩ := year_field_inj h
  obtain ⟨hm, h⟩ := field_inj not_isDigit_minus not_isDigit_minus h
  simp only [List.cons.injEq, true_and] at h
  obtain ⟨hd, h⟩ := field_inj not_isDigit_T not_isDigit_T h
  simp only [List.cons.injEq, true_and] at h
  obtain ⟨hh, h⟩ := field_inj not_isDigit_colon not_isDigit_colon h
  simp only [List.cons.injEq, true_and] at h
  obtain ⟨hmin, h⟩ := field_inj not_isDigit_colon not_isDigit_colon h
  simp only [List.cons.injEq, true_and] at h
  obtain ⟨x, r, hx, hxd⟩ := nano_zone_head n1.val
  obtain ⟨y, t, hy', hyd⟩ := nano_zone_head n2.val
  rw [hx, hy'] at h
  obtain ⟨hsec, h⟩ := field_inj hxd hyd h
  rw [← hx, ← hy'] at h
  have hn : n1 = n2 := Fin.ext (appendNano_inj n1.isLt n2.isLt (List.append_cancel_right h))
  refine ⟨?_, hn⟩
  have hyd : (time.absYear (A1 / 86400)).2 = (time.absYear (A2 / 86400)).2 := by
    rw [hy] at hm hd
    exact monthDay_inj (absYear_yday_le _) (absYear_yday_le _) (Prod.ext hm hd)
  have hdays : A1 / 86400 = A2 / 86400 := absYear_inj (Prod.ext hy hyd)
  have hclock : A1 % 86400 = A2 % 86400 := clock_inj hh hmin hsec
  have hA : A1 = A2 := by omega
  rw [ha1, ha2] at hA
  exact abs_inj hr1 hr2 hA

theorem isDigit_ne_zero {b : Byte} (h : isDigit b) : b ≠ 0 := by
  rintro rfl
  revert h
  simp only [isDigit]
  decide

theorem appendInt_ne_zero (x : Int) (w : Nat) : ∀ b ∈ time.appendInt x w, b ≠ 0 := by
  intro b hb
  rw [appendInt_sign] at hb
  split_ifs at hb
  · rcases List.mem_cons.1 hb with rfl | hb
    · decide
    · exact isDigit_ne_zero (appendInt_nat_isDigit _ _ b hb)
  · exact isDigit_ne_zero (appendInt_nat_isDigit _ _ b hb)

theorem appendNano_ne_zero (n : Nat) : ∀ b ∈ time.appendNano n, b ≠ 0 := by
  intro b hb
  simp only [time.appendNano] at hb
  split_ifs at hb
  · simp at hb
  · rcases List.mem_cons.1 hb with rfl | hb
    · decide
    · simp only [time.trimZeros, List.mem_reverse] at hb
      have hb2 := List.dropWhile_subset _ hb
      rw [List.mem_reverse] at hb2
      exact appendInt_ne_zero _ _ b hb2

/-- The rendering of a UTC time holds no NUL byte. -/
theorem format_utc_ne_zero (t : time.Time) (h : t.loc = time.UTC) :
    ∀ b ∈ t.Format .RFC3339Nano, b ≠ 0 := by
  intro b hb
  rw [format_utc t h] at hb
  simp only [List.mem_append, List.mem_cons, List.mem_singleton, List.not_mem_nil,
    or_false] at hb
  rcases hb with h | rfl | h | rfl | h | rfl | h | rfl | h | rfl | h | h | rfl
  · exact appendInt_ne_zero _ _ b h
  · decide
  · exact appendInt_ne_zero _ _ b h
  · decide
  · exact appendInt_ne_zero _ _ b h
  · decide
  · exact appendInt_ne_zero _ _ b h
  · decide
  · exact appendInt_ne_zero _ _ b h
  · decide
  · exact appendInt_ne_zero _ _ b h
  · exact appendNano_ne_zero _ b h
  · decide

/-- The rendering of `%d` holds no NUL byte. -/
theorem formatInt_ne_zero (x : Int) : ∀ b ∈ fmt.formatInt x, b ≠ 0 := by
  intro b hb
  simp only [fmt.formatInt] at hb
  split_ifs at hb
  · rcases List.mem_cons.1 hb with rfl | hb
    · decide
    · exact isDigit_ne_zero (decimal_isDigit _ b hb)
  · exact isDigit_ne_zero (decimal_isDigit _ b hb)

/-! ### The bytes written to the hash determine the inputs -/

/-- The bytes written to the hash, as the five fields and their separators. -/
theorem written_fields (tenant : GoString) (scriptRef : ScriptRef) (t : time.Time)
    (trigger : GoString) :
    (ComputeIdempotencyKey.hash tenant scriptRef t trigger).written =
      tenant ++ (0 :: (scriptRef.ScriptID.String ++ (0 :: (fmt.formatInt scriptRef.Version ++
        (0 :: (t.UTC.Format .RFC3339Nano ++ (0 :: trigger))))))) := by
  rw [hash_written]
  simp only [List.append_assoc, List.cons_append, List.nil_append]

/-- Equal keys come from equal digests. -/
theorem key_eq_digest_eq {tenant1 tenant2 : GoString} {r1 r2 : ScriptRef} {t1 t2 : time.Time}
    {trigger1 trigger2 : GoString}
    (h : ComputeIdempotencyKey tenant1 r1 t1 trigger1 =
      ComputeIdempotencyKey tenant2 r2 t2 trigger2) :
    sha256.Sum256 (ComputeIdempotencyKey.hash tenant1 r1 t1 trigger1).written =
      sha256.Sum256 (ComputeIdempotencyKey.hash tenant2 r2 t2 trigger2).written := by
  simp only [ComputeIdempotencyKey, sha256.Hash.Sum, List.nil_append] at h
  exact hex_inj h

/-- The bytes written after the tenant id and its separator determine the script
id, the version, the instant and the trigger type. -/
theorem written_tail_inj {r1 r2 : ScriptRef} {t1 t2 : time.Time}
    {trigger1 trigger2 : GoString}
    (h : r1.ScriptID.String ++ (0 :: (fmt.formatInt r1.Version ++
        (0 :: (t1.UTC.Format .RFC3339Nano ++ (0 :: trigger1))))) =
      r2.ScriptID.String ++ (0 :: (fmt.formatInt r2.Version ++
        (0 :: (t2.UTC.Format .RFC3339Nano ++ (0 :: trigger2)))))) :
    r1.ScriptID = r2.ScriptID ∧ r1.Version = r2.Version ∧
    t1.sec = t2.sec ∧ t1.nsec = t2.nsec ∧ trigger1 = trigger2 := by
  obtain ⟨e2, h⟩ := List.append_inj h (by rw [uuid_string_length, uuid_string_length])
  simp only [List.cons.injEq, true_and] at h
  obtain ⟨e3, _, h⟩ := append_sep_inj (fun b : Byte => b ≠ 0) (formatInt_ne_zero _)
    (formatInt_ne_zero _) (by simp) (by simp) h
  obtain ⟨e4, _, h⟩ := append_sep_inj (fun b : Byte => b ≠ 0) (format_utc_ne_zero _ rfl)
    (format_utc_ne_zero _ rfl) (by simp) (by simp) h
  obtain ⟨e5, e6⟩ := format_utc_inj rfl rfl e4
  exact ⟨uuid_string_inj e2, formatInt_inj e3, e5, e6, h⟩

/-- The bytes written after the tenant id and its separator hold two NUL bytes
more than the trigger type. -/
theorem written_tail_count (r : ScriptRef) (t : time.Time) (trigger : GoString) :
    List.count (0 : Byte) (r.ScriptID.String ++ (0 :: (fmt.formatInt r.Version ++
        (0 :: (t.UTC.Format .RFC3339Nano ++ (0 :: trigger)))))) =
      3 + List.count (0 : Byte) trigger := by
  have c1 : List.count (0 : Byte) r.ScriptID.String = 0 :=
    List.count_eq_zero.2 (fun hm => uuid_string_ne_zero _ 0 hm rfl)
  have c2 : List.count (0 : Byte) (fmt.formatInt r.Version) = 0 :=
    List.count_eq_zero.2 (fun hm => formatInt_ne_zero _ 0 hm rfl)
  have c3 : List.count (0 : Byte) (t.UTC.Format .RFC3339Nano) = 0 :=
    List.count_eq_zero.2 (fun hm => format_utc_ne_zero _ rfl 0 hm rfl)
  simp only [List.count_append, List.count_cons_self, c1, c2, c3]
  omega

/-- Two byte strings with a NUL byte marked in each: either the marks are at the
same place, or one marked byte lies past the other, and then the longer front part
holds a NUL byte and the shorter back part holds fewer NUL bytes than the longer. -/
theorem sep_split {a c r s : GoString} (h : a ++ (0 :: r) = c ++ (0 :: s)) :
    (a = c ∧ r = s) ∨
    ((0 : Byte) ∈ c ∧ List.count (0 : Byte) s < List.count (0 : Byte) r) ∨
    ((0 : Byte) ∈ a ∧ List.count (0 : Byte) r < List.count (0 : Byte) s) := by
  rcases List.append_eq_append_iff.1 h with ⟨m, hc, hr⟩ | ⟨m, ha, hs⟩
  · cases m with
    | nil =>
      simp only [List.append_nil, List.nil_append, List.cons.injEq, true_and] at hc hr
      exact Or.inl ⟨hc.symm, hr⟩
    | cons x m =>
      simp only [List.cons_append, List.cons.injEq] at hr
      obtain ⟨hx, hr⟩ := hr
      subst hx
      refine Or.inr (Or.inl ⟨?_, ?_⟩)
      · rw [hc]
        simp
      · rw [hr, List.count_append, List.count_cons_self]
        omega
  · cases m with
    | nil =>
      simp only [List.append_nil, List.nil_append, List.cons.injEq, true_and] at ha hs
      exact Or.inl ⟨ha, hs.symm⟩
    | cons x m =>
      simp only [List.cons_append, List.cons.injEq] at hs
      obtain ⟨hx, hs⟩ := hs
      subst hx
      refine Or.inr (Or.inr ⟨?_, ?_⟩)
      · rw [ha]
        simp
      · rw [hs, List.count_append, List.count_cons_self]
        omega

/-- The bytes written to the hash determine the tenant id, the script id, the
version, the instant and the trigger type, unless a tenant id of one side and the
trigger type of the other side both hold a NUL byte. -/
theorem written_inj_cross {tenant1 tenant2 : GoString} {r1 r2 : ScriptRef}
    {t1 t2 : time.Time} {trigger1 trigger2 : GoString}
    (h12 : (∀ b ∈ tenant1, b ≠ 0) ∨ (∀ b ∈ trigger2, b ≠ 0))
    (h21 : (∀ b ∈ tenant2, b ≠ 0) ∨ (∀ b ∈ trigger1, b ≠ 0))
    (h : (ComputeIdempotencyKey.hash tenant1 r1 t1 trigger1).written =
      (ComputeIdempotencyKey.hash tenant2 r2 t2 trigger2).written) :
    tenant1 = tenant2 ∧ r1.ScriptID = r2.ScriptID ∧ r1.Version = r2.Version ∧
    t1.sec = t2.sec ∧ t1.nsec = t2.nsec ∧ trigger1 = trigger2 := by
  rw [written_fields, written_fields] at h
  have k1 := written_tail_count r1 t1 trigger1
  have k2 := written_tail_count r2 t2 trigger2
  rcases sep_split h with ⟨e, ht⟩ | ⟨hm, hlt⟩ | ⟨hm, hlt⟩
  · exact ⟨e, written_tail_inj ht⟩
  · rcases h21 with hz | hz
    · exact absurd rfl (hz 0 hm)
    · have c : List.count (0 : Byte) trigger1 = 0 :=
        List.count_eq_zero.2 (fun hm => hz 0 hm rfl)
      omega
  · rcases h12 with hz | hz
    · exact absurd rfl (hz 0 hm)
    · have c : List.count (0 : Byte) trigger2 = 0 :=
        List.count_eq_zero.2 (fun hm => hz 0 hm rfl)
      omega

/-- With tenant ids free of NUL bytes, the bytes written to the hash determine the
tenant id, the script id, the version, the instant and the trigger type. -/
theorem written_inj {tenant1 tenant2 : GoString} {r1 r2 : ScriptRef} {t1 t2 : time.Time}
    {trigger1 trigger2 : GoString} (h1 : ∀ b ∈ tenant1, b ≠ 0) (h2 : ∀ b ∈ tenant2, b ≠ 0)
    (h : (ComputeIdempotencyKey.hash tenant1 r1 t1 trigger1).written =
      (ComputeIdempotencyKey.hash tenant2 r2 t2 trigger2).written) :
    tenant1 = tenant2 ∧ r1.ScriptID = r2.ScriptID ∧ r1.Version = r2.Version ∧
    t1.sec = t2.sec ∧ t1.nsec = t2.nsec ∧ trigger1 = trigger2 :=
  written_inj_cross (Or.inl h1) (Or.inl h2) h

/-- One second added to a time below the largest 64-bit second is the next second. -/
theorem add_second_sec (t : time.Time) (hmax : t.sec < 9223372036854775807) :
    (t.Add time.Second).sec = t.sec + 1 := by
  have h := t.nsec.isLt
  have hr := t.sec_range
  have d1 : (1000000000 : Int).tdiv 1000000000 = 1 := by decide
  have d2 : (1000000000 : Int).tmod 1000000000 = 0 := by decide
  simp only [time.Time.Add, time.Second, d1, d2, add_zero]
  rw [if_neg (by omega), if_neg (by omega)]
  have hw : time.wrap64 (t.sec + 1) = t.sec + 1 := by
    simp only [time.wrap64]
    omega
  simp only [time.addSec, hw]
  rw [if_pos (by simp)]

/-- One second added to a time at the largest 64-bit second is the same time: the
sum of the seconds saturates. -/
theorem add_second_saturates (t : time.Time) (hmax : t.sec = 9223372036854775807) :
    t.Add time.Second = t := by
  obtain ⟨sec, nsec, loc, hr⟩ := t
  simp only at hmax
  subst hmax
  have h := nsec.isLt
  have d1 : (1000000000 : Int).tdiv 1000000000 = 1 := by decide
  have d2 : (1000000000 : Int).tmod 1000000000 = 0 := by decide
  have hn : (Fin.ofNat ((nsec.val : Int)).toNat : Fin 1000000000) = nsec := by
    apply Fin.ext
    simp only [Int.toNat_ofNat, Fin.ofNat, Fin.val_mk]
    omega
  simp only [time.Time.Add, time.Second, d1, d2, add_zero]
  rw [if_neg (by omega), if_neg (by omega)]
  simp only [hn, time.Time.mk.injEq, and_true, true_and]
  decide

/-- C5. Changing one of tenant id, script id, version, instant and trigger type,
the other four being held, changes the bytes written to the hash, for all inputs
and every different instant over the whole range of 64-bit seconds; in particular
`Add(time.Second)` does at every time below the largest 64-bit second, where it is
the next second, and at the largest second it saturates and returns the same time,
which is no change of the instant; and whenever two keys are equal the SHA-256
digests of the written bytes are equal, so a single-field change leaves the key
unchanged only when SHA-256 collides on the two different byte strings. -/
theorem computeIdempotencyKey_sensitive (tenant : GoString) (scriptRef : ScriptRef)
    (t : time.Time) (trigger : GoString) :
    (∀ tenant2 : GoString, tenant2 ≠ tenant →
      (ComputeIdempotencyKey.hash tenant2 scriptRef t trigger).written ≠
        (ComputeIdempotencyKey.hash tenant scriptRef t trigger).written) ∧
    (∀ id2 : uuid.UUID, id2 ≠ scriptRef.ScriptID →
      (ComputeIdempotencyKey.hash tenant { scriptRef with ScriptID := id2 } t trigger).written ≠
        (ComputeIdempotencyKey.hash tenant scriptRef t trigger).written) ∧
    (∀ version2 : Int, version2 ≠ scriptRef.Version →
      (ComputeIdempotencyKey.hash tenant { scriptRef with Version := version2 } t trigger).written ≠
        (ComputeIdempotencyKey.hash tenant scriptRef t trigger).written) ∧
    (∀ t2 : time.Time, (t2.sec ≠ t.sec ∨ t2.nsec ≠ t.nsec) →
      (ComputeIdempotencyKey.hash tenant scriptRef t2 trigger).written ≠
        (ComputeIdempotencyKey.hash tenant scriptRef t trigger).written) ∧
    (t.sec < 9223372036854775807 →
      (ComputeIdempotencyKey.hash tenant scriptRef (t.Add time.Second) trigger).written ≠
        (ComputeIdempotencyKey.hash tenant scriptRef t trigger).written) ∧
    (t.sec = 9223372036854775807 → t.Add time.Second = t) ∧
    (∀ trigger2 : GoString, trigger2 ≠ trigger →
      (ComputeIdempotencyKey.hash tenant scriptRef t trigger2).written ≠
        (ComputeIdempotencyKey.hash tenant scriptRef t trigger).written) ∧
    (∀ (tenant2 : GoString) (scriptRef2 : ScriptRef) (t2 : time.Time) (trigger2 : GoString),
      ComputeIdempotencyKey tenant2 scriptRef2 t2 trigger2 =
        ComputeIdempotencyKey tenant scriptRef t trigger →
      sha256.Sum256 (ComputeIdempotencyKey.hash tenant2 scriptRef2 t2 trigger2).written =
        sha256.Sum256 (ComputeIdempotencyKey.hash tenant scriptRef t trigger).written) := by
  have htime : ∀ t2 : time.Time, (t2.sec ≠ t.sec ∨ t2.nsec ≠ t.nsec) →
      (ComputeIdempotencyKey.hash tenant scriptRef t2 trigger).written ≠
        (ComputeIdempotencyKey.hash tenant scriptRef t trigger).written := by
    intro t2 hne h
    rw [written_fields, written_fields] at h
    have h := List.append_cancel_left h
    simp only [List.cons.injEq, true_and] at h
    have h := List.append_cancel_left h
    simp only [List.cons.injEq, true_and] at h
    have h := List.append_cancel_left h
    simp only [List.cons.injEq, true_and] at h
    obtain ⟨e1, e2⟩ := format_utc_inj rfl rfl (List.append_cancel_right h)
    rcases hne with hne | hne
    · exact hne e1
    · exact hne e2
  refine ⟨?_, ?_, ?_, htime, ?_, add_second_saturates t, ?_, ?_⟩
  · intro tenant2 hne h
    rw [written_fields, written_fields] at h
    exact hne (List.append_cancel_right h)
  · intro id2 hne h
    rw [written_fields, written_fields] at h
    have h := List.append_cancel_left h
    simp only [List.cons.injEq, true_and] at h
    exact hne (uuid_string_inj (List.append_cancel_right h))
  · intro version2 hne h
    rw [written_fields, written_fields] at h
    have h := List.append_cancel_left h
    simp only [List.cons.injEq, true_and] at h
    have h := List.append_cancel_left h
    simp only [List.cons.injEq, true_and] at h
    exact hne (formatInt_inj (List.append_cancel_right h))
  · intro hmax
    apply htime
    left
    rw [add_second_sec t hmax]
    omega
  · intro trigger2 hne h
    rw [written_fields, written_fields] at h
    have h := List.append_cancel_left h
    simp only [List.cons.injEq, true_and] at h
    have h := List.append_cancel_left h
    simp only [List.cons.injEq, true_and] at h
    have h := List.append_cancel_left h
    simp only [List.cons.injEq, true_and] at h
    have h := List.append_cancel_left h
    simp only [List.cons.injEq, true_and] at h
    exact hne h
  · intro tenant2 scriptRef2 t2 trigger2 h
    exact key_eq_digest_eq h

set_option maxRecDepth 100000 in
/-- C5 at the inputs of `TestComputeIdempotencyKey_DeterministicAndSensitiveToInputs`:
each of the five mutations of the test changes the written bytes, and the key
itself, as computed, differs from the key of the unchanged inputs. -/
theorem computeIdempotencyKey_sensitive_witness :
    ((ComputeIdempotencyKey.hash (str "tenant-b") testScriptRef testScheduledFor
        (str "scheduled")).written ≠
      (ComputeIdempotencyKey.hash (str "tenant-a") testScriptRef testScheduledFor
        (str "scheduled")).written) ∧
    ((ComputeIdempotencyKey.hash (str "tenant-a") testScriptRef
        (testScheduledFor.Add time.Second) (str "scheduled")).written ≠
      (ComputeIdempotencyKey.hash (str "tenant-a") testScriptRef testScheduledFor
        (str "scheduled")).written) ∧
    ComputeIdempotencyKey (str "tenant-b") testScriptRef testScheduledFor (str "scheduled") ≠
      ComputeIdempotencyKey (str "tenant-a") testScriptRef testScheduledFor (str "scheduled") ∧
    ComputeIdempotencyKey (str "tenant-a") ⟨⟨List.replicate 16 0x22, rfl⟩, 7, str ""⟩
        testScheduledFor (str "scheduled") ≠
      ComputeIdempotencyKey (str "tenant-a") testScriptRef testScheduledFor (str "scheduled") ∧
    ComputeIdempotencyKey (str "tenant-a") ⟨testScriptRef.ScriptID, 8, str ""⟩
        testScheduledFor (str "scheduled") ≠
      ComputeIdempotencyKey (str "tenant-a") testScriptRef testScheduledFor (str "scheduled") ∧
    ComputeIdempotencyKey (str "tenant-a") testScriptRef (testScheduledFor.Add time.Second)
        (str "scheduled") ≠
      ComputeIdempotencyKey (str "tenant-a") testScriptRef testScheduledFor (str "scheduled") ∧
    ComputeIdempotencyKey (str "tenant-a") testScriptRef testScheduledFor (str "manual") ≠
      ComputeIdempotencyKey (str "tenant-a") testScriptRef testScheduledFor (str "scheduled") :=
  ⟨(computeIdempotencyKey_sensitive (str "tenant-a") testScriptRef testScheduledFor
      (str "scheduled")).1 (str "tenant-b") (by decide),
   (computeIdempotencyKey_sensitive (str "tenant-a") testScriptRef testScheduledFor
      (str "scheduled")).2.2.2.2.1 (by decide),
   by decide, by decide, by decide, by decide, by decide⟩

/-- C6, as stated, fails: a tenant id and a trigger type that hold NUL bytes.  The
tenant `tenant-a` with a trigger type that spells out a second record, and the
tenant id that spells out the first record with the trigger type `scheduled`,
are different inputs that write the same bytes to the hash and get the same key. -/
theorem nul_bytes_make_inputs_collide :
    str "tenant-a" ≠
      str "tenant-a" ++ [0] ++ str "11111111-1111-1111-1111-111111111111" ++ [0] ++ str "7" ++
        [0] ++ str "2026-02-06T15:34:56.789Z" ++ [0] ++ str "x" ∧
    (ComputeIdempotencyKey.hash (str "tenant-a") testScriptRef testScheduledFor
        (str "x" ++ [0] ++ str "11111111-1111-1111-1111-111111111111" ++ [0] ++ str "7" ++
          [0] ++ str "2026-02-06T15:34:56.789Z" ++ [0] ++ str "scheduled")).written =
      (ComputeIdempotencyKey.hash
        (str "tenant-a" ++ [0] ++ str "11111111-1111-1111-1111-111111111111" ++ [0] ++ str "7" ++
          [0] ++ str "2026-02-06T15:34:56.789Z" ++ [0] ++ str "x")
        testScriptRef testScheduledFor (str "scheduled")).written ∧
    ComputeIdempotencyKey (str "tenant-a") testScriptRef testScheduledFor
        (str "x" ++ [0] ++ str "11111111-1111-1111-1111-111111111111" ++ [0] ++ str "7" ++
          [0] ++ str "2026-02-06T15:34:56.789Z" ++ [0] ++ str "scheduled") =
      ComputeIdempotencyKey
        (str "tenant-a" ++ [0] ++ str "11111111-1111-1111-1111-111111111111" ++ [0] ++ str "7" ++
          [0] ++ str "2026-02-06T15:34:56.789Z" ++ [0] ++ str "x")
        testScriptRef testScheduledFor (str "scheduled") := by
  have hw : (ComputeIdempotencyKey.hash (str "tenant-a") testScriptRef testScheduledFor
        (str "x" ++ [0] ++ str "11111111-1111-1111-1111-111111111111" ++ [0] ++ str "7" ++
          [0] ++ str "2026-02-06T15:34:56.789Z" ++ [0] ++ str "scheduled")).written =
      (ComputeIdempotencyKey.hash
        (str "tenant-a" ++ [0] ++ str "11111111-1111-1111-1111-111111111111" ++ [0] ++ str "7" ++
          [0] ++ str "2026-02-06T15:34:56.789Z" ++ [0] ++ str "x")
        testScriptRef testScheduledFor (str "scheduled")).written := by decide
  refine ⟨by decide, hw, ?_⟩
  rw [ComputeIdempotencyKey, ComputeIdempotencyKey, sha256.Hash.Sum, sha256.Hash.Sum, hw]

/-- C6, amended.  Unless the tenant id of one input and the trigger type of the
other input both hold a NUL byte (so for all tenant ids when the trigger types
are free of NUL bytes, for all trigger types when the tenant ids are, and for all
pairs of which one input is free of them): two inputs that differ in the tenant
id, the script id, the version, the instant or the trigger type write different
bytes to the hash, and equal keys mean equal SHA-256 digests of the written
bytes, so the keys differ unless SHA-256 collides on the two byte strings; two
inputs that agree in all five get the same key. -/
theorem written_injective_unless_nul_crosses (tenant1 tenant2 : GoString)
    (r1 r2 : ScriptRef) (t1 t2 : time.Time) (trigger1 trigger2 : GoString)
    (h12 : (∀ b ∈ tenant1, b ≠ 0) ∨ (∀ b ∈ trigger2, b ≠ 0))
    (h21 : (∀ b ∈ tenant2, b ≠ 0) ∨ (∀ b ∈ trigger1, b ≠ 0)) :
    ((tenant1 ≠ tenant2 ∨ r1.ScriptID ≠ r2.ScriptID ∨ r1.Version ≠ r2.Version ∨
        t1.sec ≠ t2.sec ∨ t1.nsec ≠ t2.nsec ∨ trigger1 ≠ trigger2) →
      (ComputeIdempotencyKey.hash tenant1 r1 t1 trigger1).written ≠
        (ComputeIdempotencyKey.hash tenant2 r2 t2 trigger2).written ∧
      (ComputeIdempotencyKey tenant1 r1 t1 trigger1 = ComputeIdempotencyKey tenant2 r2 t2 trigger2 →
        sha256.Sum256 (ComputeIdempotencyKey.hash tenant1 r1 t1 trigger1).written =
          sha256.Sum256 (ComputeIdempotencyKey.hash tenant2 r2 t2 trigger2).written)) ∧
    ((tenant1 = tenant2 ∧ r1.ScriptID = r2.ScriptID ∧ r1.Version = r2.Version ∧
        t1.sec = t2.sec ∧ t1.nsec = t2.nsec ∧ trigger1 = trigger2) →
      ComputeIdempotencyKey tenant1 r1 t1 trigger1 =
        ComputeIdempotencyKey tenant2 r2 t2 trigger2) := by
  constructor
  · intro hne
    refine ⟨fun hw => ?_, key_eq_digest_eq⟩
    obtain ⟨e1, e2, e3, e4, e5, e6⟩ := written_inj_cross h12 h21 hw
    rcases hne with h | h | h | h | h | h
    · exact h e1
    · exact h e2
    · exact h e3
    · exact h e4
    · exact h e5
    · exact h e6
  · rintro ⟨e1, e2, e3, e4, e5, e6⟩
    rw [key_digest tenant1 r1 t1 trigger1, key_digest tenant2 r2 t2 trigger2, e1, e2, e3,
      utc_eq_of_instant e4 e5, e6]

set_option maxRecDepth 100000 in
/-- C6, amended, at the tenant ids `a`, NUL, `b` and `a` with the trigger types
`c` and `b`, NUL-free both: the first tenant id holds a NUL byte, and the written
bytes are kept apart. -/
theorem written_injective_unless_nul_crosses_witness :
    (0 : Byte) ∈ str "a" ++ [0] ++ str "b" ∧
    (ComputeIdempotencyKey.hash (str "a" ++ [0] ++ str "b") testScriptRef testScheduledFor
        (str "c")).written ≠
      (ComputeIdempotencyKey.hash (str "a") testScriptRef testScheduledFor (str "b")).written :=
  ⟨by decide,
   ((written_injective_unless_nul_crosses (str "a" ++ [0] ++ str "b") (str "a") testScriptRef
    testScriptRef testScheduledFor testScheduledFor (str "c") (str "b")
    (Or.inr (by decide)) (Or.inl (by decide))).1 (Or.inl (by decide))).1⟩

/-! ### Fields that `ValidateBasic` does not read -/

/-- The jobs on which `ValidateBasic` returns no error. -/
theorem validateBasic_none_iff (j : ExecutionJobV1) : j.ValidateBasic = none ↔
    (j.JobSchemaVersion = 1 ∧ j.JobID ≠ uuid.Nil ∧ j.ExecutionID ≠ uuid.Nil ∧
      j.TenantID ≠ [] ∧ j.IdempotencyKey ≠ [] ∧ j.ScriptRef.ScriptID ≠ uuid.Nil ∧
      j.CreatedAt.IsZero = false) := by
  simp only [ExecutionJobV1.ValidateBasic, JobSchemaVersionV1, str_empty]
  split_ifs <;> simp_all

/-- C11, as stated, fails: the job of the test with an empty trigger type passes
`ValidateBasic`. -/
theorem empty_trigger_type_passes :
    ({ testJob with TriggerType := str "" }).TriggerType = [] ∧
    ({ testJob with TriggerType := str "" }).ValidateBasic = none := by
  decide

/-- C11, amended.  `ValidateBasic` does not read the trigger type: replacing it
by any string, the empty one included, leaves the result unchanged, so a job with
an empty trigger type is rejected exactly when one of the seven checks on the
other fields fails. -/
theorem validateBasic_ignores_trigger_type (j : ExecutionJobV1) :
    (∀ trigger : GoString, ({ j with TriggerType := trigger }).ValidateBasic = j.ValidateBasic) ∧
    (({ j with TriggerType := [] }).ValidateBasic = none ↔
      (j.JobSchemaVersion = 1 ∧ j.JobID ≠ uuid.Nil ∧ j.ExecutionID ≠ uuid.Nil ∧
        j.TenantID ≠ [] ∧ j.IdempotencyKey ≠ [] ∧ j.ScriptRef.ScriptID ≠ uuid.Nil ∧
        j.CreatedAt.IsZero = false)) :=
  ⟨fun _ => rfl, validateBasic_none_iff _⟩

/-- C12, as stated, fails: the job of the test with the empty priority, which
`StreamName` rejects for either pool, passes `ValidateBasic`. -/
theorem empty_priority_passes :
    ({ testJob with Priority := str "" }).ValidateBasic = none ∧
    (StreamName quotePlain WorkerPoolAPI ({ testJob with Priority := str "" }).Priority).2 =
      some (fmt.Errorf (str "invalid priority: \"\"")) ∧
    (StreamName quotePlain WorkerPoolBrowser ({ testJob with Priority := str "" }).Priority).2 =
      some (fmt.Errorf (str "invalid priority: \"\"")) := by
  decide

/-- C12, amended.  `ValidateBasic` does not read the priority: replacing it by
any string leaves the result unchanged.  A priority other than `high` and
`normal` is rejected by `StreamName`, which returns the empty name and an error
for it on every pool. -/
theorem priority_checked_by_streamName (Quote : GoString → GoString) (j : ExecutionJobV1) :
    (∀ q : Priority, ({ j with Priority := q }).ValidateBasic = j.ValidateBasic) ∧
    (∀ (p : WorkerPool) (q : Priority), ¬ (q = str "high" ∨ q = str "normal") →
      ∃ e, StreamName Quote p q = ([], some e)) := by
  refine ⟨fun _ => rfl, ?_⟩
  intro p q hq
  by_cases hp : p = str "api" ∨ p = str "browser"
  · exact ⟨_, streamName_bad_priority Quote p q hp hq⟩
  · exact ⟨_, streamName_bad_pool Quote p q hp⟩

/-! ### The first violation -/

/-- The error of every check holds the wire name of the field of the check. -/
theorem check_names_field (j : ExecutionJobV1) :
    ∀ c ∈ checksInOrder j, ∃ a b : GoString, c.2.2.msg = a ++ c.1 ++ b := by
  intro c hc
  simp only [checksInOrder, List.mem_cons, List.mem_singleton, List.not_mem_nil, or_false] at hc
  rcases hc with rfl | rfl | rfl | rfl | rfl | rfl | rfl
  · exact ⟨str "unsupported ", str ": " ++ fmt.formatInt j.JobSchemaVersion, rfl⟩
  · exact ⟨[], str " is required", rfl⟩
  · exact ⟨[], str " is required", rfl⟩
  · exact ⟨[], str " is required", rfl⟩
  · exact ⟨[], str " is required", rfl⟩
  · exact ⟨str "script_ref.", str " is required", rfl⟩
  · exact ⟨[], str " is required", rfl⟩

/-- The result of `ValidateBasic` is the error of the first violated check. -/
theorem validateBasic_eq_firstViolation (j : ExecutionJobV1) :
    j.ValidateBasic = (firstViolation j).map Prod.snd := by
  simp only [ExecutionJobV1.ValidateBasic, JobSchemaVersionV1, str_empty, firstViolation,
    checksInOrder, fmt.Errorf, List.find?_cons, List.find?_nil]
  split_ifs <;> simp_all

/-- C13. `ValidateBasic` returns the error of the first violated check in the
order schema version, job id, execution id, tenant id, idempotency key, script id,
creation time, and no error when none is violated; the message of that error
holds the wire name of the field of the check. -/
theorem validateBasic_first_violation (j : ExecutionJobV1) :
    j.ValidateBasic = (firstViolation j).map Prod.snd ∧
    (∀ (name : GoString) (e : GoError), firstViolation j = some (name, e) →
      j.ValidateBasic = some e ∧ ∃ a b : GoString, e.msg = a ++ name ++ b) ∧
    (j.ValidateBasic ≠ none → ∃ name e, firstViolation j = some (name, e)) := by
  have h := validateBasic_eq_firstViolation j
  refine ⟨h, ?_, ?_⟩
  · intro name e hf
    refine ⟨by rw [h, hf]; rfl, ?_⟩
    simp only [firstViolation, Option.map_eq_some'] at hf
    obtain ⟨c, hc, hce⟩ := hf
    have hm := List.mem_of_find?_eq_some hc
    obtain ⟨a, b, hab⟩ := check_names_field j c hm
    simp only [Prod.mk.injEq] at hce
    rw [← hce.1, ← hce.2]
    exact ⟨a, b, hab⟩
  · intro hne
    rw [h] at hne
    cases hf : firstViolation j with
    | none => rw [hf] at hne; exact absurd rfl hne
    | some v => exact ⟨v.1, v.2, rfl⟩

/-- C13 at the job of the claim: version 1, a nil job id and an empty tenant id
give the error of the job id, and a job with every field at its zero value gives
the error of the version. -/
theorem validateBasic_first_violation_witness :
    ({ testJob with JobID := uuid.Nil, TenantID := str "" }).ValidateBasic =
      some (fmt.Errorf (str "job_id is required")) ∧
    firstViolation { testJob with JobID := uuid.Nil, TenantID := str "" } =
      some (str "job_id", fmt.Errorf (str "job_id is required")) ∧
    firstViolation zeroJob =
      some (str "job_schema_version", fmt.Errorf (str "unsupported job_schema_version: 0")) ∧
    firstViolation testJob = none :=
  ⟨((validateBasic_first_violation
      { testJob with JobID := uuid.Nil, TenantID := str "" }).2.1 (str "job_id")
        (fmt.Errorf (str "job_id is required")) (by decide)).1,
   by decide, by decide, by decide⟩

/-! ### The shape of the key -/

theorem beBytes_length : ∀ (n x : Nat), (beBytes n x).length = n
  | 0, _ => rfl
  | n + 1, x => by
    rw [beBytes, List.length_append, beBytes_length n, List.length_singleton]

/-- The SHA-256 digest has 32 bytes. -/
theorem sum256_length (msg : List Byte) : (sha256.Sum256 msg).length = 32 := by
  simp only [sha256.Sum256, List.length_append, beBytes_length]

/-- The key has 64 bytes. -/
theorem key_length (tenant : GoString) (scriptRef : ScriptRef) (t : time.Time)
    (trigger : GoString) : (ComputeIdempotencyKey tenant scriptRef t trigger).length = 64 := by
  rw [key_digest, hex_length, sum256_length]

theorem key_ne_nil (tenant : GoString) (scriptRef : ScriptRef) (t : time.Time)
    (trigger : GoString) : ComputeIdempotencyKey tenant scriptRef t trigger ≠ [] := by
  intro h
  have := key_length tenant scriptRef t trigger
  rw [h] at this
  exact absurd this (by decide)

theorem hexdigit_range : ∀ n : Fin 16,
    (48 ≤ (hex.hexdigit n.val).val ∧ (hex.hexdigit n.val).val ≤ 57) ∨
    (97 ≤ (hex.hexdigit n.val).val ∧ (hex.hexdigit n.val).val ≤ 102) := by
  decide

/-- Every byte of a hexadecimal encoding is one of `0` to `9` or `a` to `f`. -/
theorem hex_range (bs : List Byte) : ∀ b ∈ hex.EncodeToString bs,
    (48 ≤ b.val ∧ b.val ≤ 57) ∨ (97 ≤ b.val ∧ b.val ≤ 102) := by
  intro b hb
  simp only [hex.EncodeToString, List.mem_flatMap, List.mem_cons, List.mem_singleton,
    List.not_mem_nil, or_false] at hb
  obtain ⟨x, _, rfl | rfl⟩ := hb
  · exact hexdigit_range ⟨x.val / 16, by have := x.isLt; omega⟩
  · exact hexdigit_range ⟨x.val % 16, by omega⟩

/-- The execution id derived from a key is not the nil UUID. -/
theorem deterministicExecutionID_ne_nil (k : GoString) : DeterministicExecutionID k ≠ uuid.Nil := by
  have hv : (DeterministicExecutionID k).Version = 5 := newHash_version5 _ _ _
  intro h
  rw [h] at hv
  revert hv
  decide

/-- A job with a non-empty idempotency key never gets the error of that key. -/
theorem validateBasic_no_key_error (k : ExecutionJobV1) (hk : k.IdempotencyKey ≠ []) :
    k.ValidateBasic ≠ some (fmt.Errorf (str "idempotency_key is required")) := by
  intro h
  by_cases hv : k.JobSchemaVersion = 1
  · simp only [ExecutionJobV1.ValidateBasic, JobSchemaVersionV1, str_empty] at h
    rw [if_neg (not_not.mpr hv)] at h
    split_ifs at h <;> exact absurd h (by decide)
  · rw [validateBasic_unsupported k hv] at h
    simp only [Option.some.injEq] at h
    refine errorf_ne_of_take ?_ h
    have hu : (str "unsupported job_schema_version: " ++
        fmt.formatInt k.JobSchemaVersion).take 9 = str "unsupport" := rfl
    rw [hu]
    decide

/-- C14. For all inputs the key has exactly 64 bytes, each one of `0` to `9` or
`a` to `f`; it is never empty, so `ValidateBasic` never returns the error of the
idempotency key for a job that carries it, and such a job passes when its other
six checks pass. -/
theorem computeIdempotencyKey_shape (tenant : GoString) (scriptRef : ScriptRef)
    (t : time.Time) (trigger : GoString) :
    (ComputeIdempotencyKey tenant scriptRef t trigger).length = 64 ∧
    (∀ b ∈ ComputeIdempotencyKey tenant scriptRef t trigger,
      (chr '0' ≤ b ∧ b ≤ chr '9') ∨ (chr 'a' ≤ b ∧ b ≤ chr 'f')) ∧
    ComputeIdempotencyKey tenant scriptRef t trigger ≠ str "" ∧
    (∀ j : ExecutionJobV1,
      ({ j with IdempotencyKey := ComputeIdempotencyKey tenant scriptRef t trigger }).ValidateBasic ≠
        some (fmt.Errorf (str "idempotency_key is required"))) ∧
    (∀ j : ExecutionJobV1, j.JobSchemaVersion = 1 → j.JobID ≠ uuid.Nil →
      j.ExecutionID ≠ uuid.Nil → j.TenantID ≠ [] → j.ScriptRef.ScriptID ≠ uuid.Nil →
      j.CreatedAt.IsZero = false →
      ({ j with IdempotencyKey := ComputeIdempotencyKey tenant scriptRef t trigger }).ValidateBasic =
        none) := by
  have hne := key_ne_nil tenant scriptRef t trigger
  refine ⟨key_length tenant scriptRef t trigger, ?_, hne, ?_, ?_⟩
  · intro b hb
    rw [key_digest] at hb
    exact hex_range _ b hb
  · intro j
    exact validateBasic_no_key_error _ hne
  · intro j h1 h2 h3 h4 h5 h6
    exact (validateBasic_none_iff _).2 ⟨h1, h2, h3, h4, hne, h5, h6⟩

set_option maxRecDepth 100000 in
/-- C14 at the inputs of the test and at empty inputs with the nil script id. -/
theorem computeIdempotencyKey_shape_witness :
    ComputeIdempotencyKey (str "tenant-a") testScriptRef testScheduledFor (str "scheduled") =
      str "01d6c35b57aeafe6dd4786469bcce8ca40a16f9c35754c4066eca26fbc7045e6" ∧
    (ComputeIdempotencyKey (str "") ⟨uuid.Nil, 0, str ""⟩ ⟨0, 0, time.UTC, by decide⟩ (str "")).length = 64 ∧
    ({ testJob with IdempotencyKey :=
        ComputeIdempotencyKey (str "") ⟨uuid.Nil, 0, str ""⟩ ⟨0, 0, time.UTC, by decide⟩ (str "") }).ValidateBasic =
      none :=
  ⟨by decide,
   (computeIdempotencyKey_shape (str "") ⟨uuid.Nil, 0, str ""⟩ ⟨0, 0, time.UTC, by decide⟩ (str "")).1,
   (computeIdempotencyKey_shape (str "") ⟨uuid.Nil, 0, str ""⟩ ⟨0, 0, time.UTC, by decide⟩
      (str "")).2.2.2.2 testJob (by decide) (by decide) (by decide) (by decide) (by decide)
      (by decide)⟩

/-! ### The fixed names -/

/-- A name that `StreamName` returns without error comes from a valid pool and a
valid priority. -/
theorem streamName_valid (Quote : GoString → GoString) (p q name : GoString)
    (h : StreamName Quote p q = (name, none)) :
    (p = str "api" ∨ p = str "browser") ∧ (q = str "high" ∨ q = str "normal") ∧
    name = str "synthetic:jobs:" ++ p ++ str ":" ++ q := by
  by_cases hp : p = str "api" ∨ p = str "browser"
  · by_cases hq : q = str "high" ∨ q = str "normal"
    · rw [streamName_ok Quote p q hp hq] at h
      exact ⟨hp, hq, (congrArg Prod.fst h).symm⟩
    · rw [streamName_bad_priority Quote p q hp hq] at h
      exact Option.noConfusion (congrArg Prod.snd h)
  · rw [streamName_bad_pool Quote p q hp] at h
    exact Option.noConfusion (congrArg Prod.snd h)

/-- C16. The dead-letter stream, the delayed set and the three reserved field
keys have the byte values of the specification with the namespace `synthetic`;
the two names start with `synthetic:jobs:`, as every name that `StreamName`
returns does. -/
theorem fixed_names (Quote : GoString → GoString) :
    DLQStream = str "synthetic:jobs:dlq" ∧
    DelayedZSet = str "synthetic:jobs:delayed" ∧
    StreamFieldPayload = str "payload" ∧
    StreamFieldError = str "error" ∧
    StreamFieldErrorType = str "error_type" ∧
    DLQStream =
      [115, 121, 110, 116, 104, 101, 116, 105, 99, 58, 106, 111, 98, 115, 58, 100, 108, 113] ∧
    DelayedZSet =
      [115, 121, 110, 116, 104, 101, 116, 105, 99, 58, 106, 111, 98, 115, 58, 100, 101, 108, 97,
        121, 101, 100] ∧
    StreamFieldPayload = [112, 97, 121, 108, 111, 97, 100] ∧
    StreamFieldError = [101, 114, 114, 111, 114] ∧
    StreamFieldErrorType = [101, 114, 114, 111, 114, 95, 116, 121, 112, 101] ∧
    DLQStream = str "synthetic:jobs:" ++ str "dlq" ∧
    DelayedZSet = str "synthetic:jobs:" ++ str "delayed" ∧
    (∀ p q name : GoString, StreamName Quote p q = (name, none) →
      ∃ rest, name = str "synthetic:jobs:" ++ rest) := by
  refine ⟨rfl, rfl, rfl, rfl, rfl, by decide, by decide, by decide, by decide, by decide,
    by decide, by decide, ?_⟩
  intro p q name h
  obtain ⟨_, _, hn⟩ := streamName_valid Quote p q name h
  exact ⟨p ++ (str ":" ++ q), by rw [hn]; simp only [List.append_assoc]⟩

/-- C18. `StreamName` is injective where it succeeds; no name it returns is the
dead-letter stream or the delayed set; and the four stream names, the
dead-letter stream and the delayed set are six different names. -/
theorem stream_names_distinct (Quote : GoString → GoString) :
    (∀ p1 q1 p2 q2 name : GoString, StreamName Quote p1 q1 = (name, none) →
      StreamName Quote p2 q2 = (name, none) → p1 = p2 ∧ q1 = q2) ∧
    (∀ p q name : GoString, StreamName Quote p q = (name, none) →
      name ≠ DLQStream ∧ name ≠ DelayedZSet) ∧
    [(StreamName Quote WorkerPoolAPI PriorityHigh).1,
      (StreamName Quote WorkerPoolAPI PriorityNormal).1,
      (StreamName Quote WorkerPoolBrowser PriorityHigh).1,
      (StreamName Quote WorkerPoolBrowser PriorityNormal).1, DLQStream, DelayedZSet].Nodup ∧
    [(StreamName Quote WorkerPoolAPI PriorityHigh).1,
      (StreamName Quote WorkerPoolAPI PriorityNormal).1,
      (StreamName Quote WorkerPoolBrowser PriorityHigh).1,
      (StreamName Quote WorkerPoolBrowser PriorityNormal).1] =
      [str "synthetic:jobs:api:high", str "synthetic:jobs:api:normal",
        str "synthetic:jobs:browser:high", str "synthetic:jobs:browser:normal"] := by
  have e1 : StreamName Quote WorkerPoolAPI PriorityHigh =
      (str "synthetic:jobs:" ++ str "api" ++ str ":" ++ str "high", none) :=
    streamName_ok Quote _ _ (Or.inl rfl) (Or.inl rfl)
  have e2 : StreamName Quote WorkerPoolAPI PriorityNormal =
      (str "synthetic:jobs:" ++ str "api" ++ str ":" ++ str "normal", none) :=
    streamName_ok Quote _ _ (Or.inl rfl) (Or.inr rfl)
  have e3 : StreamName Quote WorkerPoolBrowser PriorityHigh =
      (str "synthetic:jobs:" ++ str "browser" ++ str ":" ++ str "high", none) :=
    streamName_ok Quote _ _ (Or.inr rfl) (Or.inl rfl)
  have e4 : StreamName Quote WorkerPoolBrowser PriorityNormal =
      (str "synthetic:jobs:" ++ str "browser" ++ str ":" ++ str "normal", none) :=
    streamName_ok Quote _ _ (Or.inr rfl) (Or.inr rfl)
  refine ⟨?_, ?_, ?_, ?_⟩
  · intro p1 q1 p2 q2 name h1 h2
    obtain ⟨hp1, hq1, hn1⟩ := streamName_valid Quote p1 q1 name h1
    obtain ⟨hp2, hq2, hn2⟩ := streamName_valid Quote p2 q2 name h2
    have h : str "synthetic:jobs:" ++ p1 ++ str ":" ++ q1 =
        str "synthetic:jobs:" ++ p2 ++ str ":" ++ q2 := by rw [← hn1, ← hn2]
    rcases hp1 with rfl | rfl <;> rcases hq1 with rfl | rfl <;>
      rcases hp2 with rfl | rfl <;> rcases hq2 with rfl | rfl <;>
      first
        | exact ⟨rfl, rfl⟩
        | exact absurd h (by decide)
  · intro p q name h
    obtain ⟨hp, hq, hn⟩ := streamName_valid Quote p q name h
    rcases hp with rfl | rfl <;> rcases hq with rfl | rfl <;> subst hn <;> decide
  · rw [e1, e2, e3, e4]
    decide
  · rw [e1, e2, e3, e4]
    rfl

/-! ### The written bytes determine the inputs -/

/-- C19. For tenant ids that hold no NUL byte, equal bytes written to the hash
mean equal tenant ids, script ids, versions, instants and trigger types, the
trigger types being arbitrary; and the renderings of the script id, of the
version and of the time hold no NUL byte. -/
theorem written_determines_inputs (tenant1 tenant2 : GoString) (r1 r2 : ScriptRef)
    (t1 t2 : time.Time) (trigger1 trigger2 : GoString)
    (h1 : ∀ b ∈ tenant1, b ≠ 0) (h2 : ∀ b ∈ tenant2, b ≠ 0)
    (h : (ComputeIdempotencyKey.hash tenant1 r1 t1 trigger1).written =
      (ComputeIdempotencyKey.hash tenant2 r2 t2 trigger2).written) :
    (tenant1 = tenant2 ∧ r1.ScriptID = r2.ScriptID ∧ r1.Version = r2.Version ∧
      t1.sec = t2.sec ∧ t1.nsec = t2.nsec ∧ trigger1 = trigger2) ∧
    (∀ b ∈ r1.ScriptID.String, b ≠ 0) ∧
    (∀ b ∈ fmt.formatInt r1.Version, b ≠ 0) ∧
    (∀ b ∈ t1.UTC.Format .RFC3339Nano, b ≠ 0) :=
  ⟨written_inj h1 h2 h, uuid_string_ne_zero _, formatInt_ne_zero _,
    format_utc_ne_zero t1.UTC rfl⟩

set_option maxRecDepth 100000 in
/-- C19 at the inputs of the test and at the same instant in UTC with another
content hash: the written bytes are equal, and so are the five inputs. -/
theorem written_determines_inputs_witness :
    (str "tenant-a" = str "tenant-a" ∧
      testScriptRef.ScriptID = ({ testScriptRef with Sha256 := str "" }).ScriptID ∧
      testScriptRef.Version = ({ testScriptRef with Sha256 := str "" }).Version ∧
      testScheduledFor.sec = testScheduledForUTC.sec ∧
      testScheduledFor.nsec = testScheduledForUTC.nsec ∧
      str "scheduled" = str "scheduled") ∧
    testScheduledFor ≠ testScheduledForUTC :=
  ⟨(written_determines_inputs (str "tenant-a") (str "tenant-a") testScriptRef
      { testScriptRef with Sha256 := str "" } testScheduledFor
      testScheduledForUTC (str "scheduled") (str "scheduled")
      (by decide) (by decide) (by decide)).1,
   by decide⟩

/-! ### Derived identity and validation -/

/-- C20. A job with schema version 1, a non-nil job id, a non-empty tenant id, a
non-nil script id and a non-zero creation time passes `ValidateBasic` once its
idempotency key is set to the key computed from its tenant id, script reference
and trigger type at any time, and its execution id to the id derived from that
key. -/
theorem derived_identity_valid (j : ExecutionJobV1) (t : time.Time)
    (hversion : j.JobSchemaVersion = 1) (hjob : j.JobID ≠ uuid.Nil) (htenant : j.TenantID ≠ [])
    (hscript : j.ScriptRef.ScriptID ≠ uuid.Nil) (hcreated : j.CreatedAt.IsZero = false) :
    ({ j with
        IdempotencyKey := ComputeIdempotencyKey j.TenantID j.ScriptRef t j.TriggerType,
        ExecutionID := DeterministicExecutionID
          (ComputeIdempotencyKey j.TenantID j.ScriptRef t j.TriggerType) }).ValidateBasic =
      none :=
  (validateBasic_none_iff _).2
    ⟨hversion, hjob, deterministicExecutionID_ne_nil _, htenant, key_ne_nil _ _ _ _, hscript,
      hcreated⟩

set_option maxRecDepth 100000 in
/-- C20 at the job of the test with a nil execution id and an empty idempotency
key, which fails as it is, and at the time of the key test. -/
theorem derived_identity_valid_witness :
    ({ testJob with ExecutionID := uuid.Nil, IdempotencyKey := str "" }).ValidateBasic ≠ none ∧
    ({ testJob with
        IdempotencyKey := ComputeIdempotencyKey testJob.TenantID testJob.ScriptRef
          testScheduledFor testJob.TriggerType,
        ExecutionID := DeterministicExecutionID
          (ComputeIdempotencyKey testJob.TenantID testJob.ScriptRef testScheduledFor
            testJob.TriggerType) }).ValidateBasic = none :=
  ⟨by decide,
   derived_identity_valid { testJob with ExecutionID := uuid.Nil, IdempotencyKey := str "" }
     testScheduledFor (by decide) (by decide) (by decide) (by decide) (by decide)⟩

/-! ### The wire record -/

/-- C17. For a job whose trace parent and content hash are empty, whose scheduled
time, next visible time and scenario id are absent and whose limits are all zero,
every object that `json.Marshal` encodes has exactly the thirteen keys of the
list: `traceparent`, `scheduled_for`, `next_visible_at` and `scenario_id` are
left out, and `sha256` is left out of `script_ref`, but `limits` is written, with
the empty object as its value, because the option `omitempty` of its tag never
applies to a struct. -/
theorem marshal_optional_fields (encodeTime : time.Time → Option Any) (j : ExecutionJobV1)
    (htrace : j.TraceParent = []) (hscheduled : j.ScheduledFor = none)
    (hvisible : j.NextVisibleAt = none) (hscenario : j.ScenarioID = none)
    (hsha : j.ScriptRef.Sha256 = []) (hlimits : j.Limits = ⟨0, 0, 0, 0, 0, 0, 0⟩) :
    ∀ obj : Any, json.Marshal encodeTime j = some obj →
      obj.keys = [str "job_schema_version", str "job_id", str "execution_id", str "tenant_id",
        str "idempotency_key", str "trigger_type", str "priority", str "attempt",
        str "max_attempts", str "script_ref", str "config", str "limits", str "created_at"] ∧
      str "traceparent" ∉ obj.keys ∧ str "scheduled_for" ∉ obj.keys ∧
      str "next_visible_at" ∉ obj.keys ∧ str "scenario_id" ∉ obj.keys ∧
      obj.get (str "script_ref") = some (.object
        [(str "script_id", .string j.ScriptRef.ScriptID.String),
         (str "version", .number j.ScriptRef.Version)]) ∧
      str "limits" ∈ obj.keys ∧
      obj.get (str "limits") = some (.object []) := by
  intro obj h
  have hkeys : obj = .object
      [(str "job_schema_version", .number j.JobSchemaVersion),
       (str "job_id", json.encodeUUID j.JobID),
       (str "execution_id", json.encodeUUID j.ExecutionID),
       (str "tenant_id", .string j.TenantID),
       (str "idempotency_key", .string j.IdempotencyKey),
       (str "trigger_type", .string j.TriggerType),
       (str "priority", .string j.Priority),
       (str "attempt", .number j.Attempt),
       (str "max_attempts", .number j.MaxAttempts),
       (str "script_ref", .object
        [(str "script_id", .string j.ScriptRef.ScriptID.String),
         (str "version", .number j.ScriptRef.Version)]),
       (str "config", (obj.get (str "config")).getD .null),
       (str "limits", .object []),
       (str "created_at", (obj.get (str "created_at")).getD .null)] := by
    simp only [json.Marshal, json.ExecutionJobV1.fields, htrace, hscheduled, hvisible,
      hscenario, hsha, hlimits] at h
    generalize json.encodeStruct (json.ExecutionConfigV1.fields j.Config) = cfg at h
    generalize encodeTime j.CreatedAt = created at h
    simp only [json.encodeStruct, json.encodeFields, json.isEmptyValue, json.ScriptRef.fields,
      json.Limits.fields, json.encodeUUID, hsha] at h
    cases cfg with
    | none => simp at h
    | some c =>
      cases created with
      | none => simp at h
      | some t =>
        simp at h
        subst h
        rfl
  have hk : obj.keys = [str "job_schema_version", str "job_id", str "execution_id",
      str "tenant_id", str "idempotency_key", str "trigger_type", str "priority", str "attempt",
      str "max_attempts", str "script_ref", str "config", str "limits", str "created_at"] := by
    rw [hkeys]
    rfl
  refine ⟨hk, ?_, ?_, ?_, ?_, by rw [hkeys]; rfl, ?_, by rw [hkeys]; rfl⟩ <;> rw [hk] <;> decide

set_option maxRecDepth 100000 in
/-- C17 at the job of the test, whose optional fields are all empty: the encoding
succeeds, and the object has the key `limits`. -/
theorem marshal_optional_fields_witness :
    (json.Marshal encodeTimeRFC3339 testJob).isSome = true ∧
    (json.Marshal encodeTimeRFC3339 testJob).map Any.keys =
      some [str "job_schema_version", str "job_id", str "execution_id", str "tenant_id",
        str "idempotency_key", str "trigger_type", str "priority", str "attempt",
        str "max_attempts", str "script_ref", str "config", str "limits", str "created_at"] ∧
    (∀ obj : Any, json.Marshal encodeTimeRFC3339 testJob = some obj →
      str "limits" ∈ obj.keys ∧ obj.get (str "limits") = some (.object [])) :=
  ⟨by decide, by decide,
   fun obj h =>
    ⟨(marshal_optional_fields encodeTimeRFC3339 testJob rfl rfl rfl rfl rfl rfl obj h).2.2.2.2.2.2.1,
     (marshal_optional_fields encodeTimeRFC3339 testJob rfl rfl rfl rfl rfl rfl obj h).2.2.2.2.2.2.2⟩⟩

end Job
